import Mathlib

/-!
Verification development for the sync-and-cluster pipeline of the
killthenoise back end.  The Python services under `app/services/` are
shallowly embedded as executable Lean functions over explicit state:

* `_simple_signature` and `AIIssueClusteringService` (ingest / recluster)
  from `app/services/ai_clustering_service.py`;
* `SchedulerService` (`_sync_all_tenants`, `_check_and_sync_integration`,
  `trigger_manual_sync`) from `app/services/scheduler_service.py`;
* `HubSpotService` (`_get_valid_token`, `_refresh_access_token`,
  `list_tickets`, `_sync_with_tracking`) from `app/services/hubspot_service.py`.

Machine integers are modelled as `Nat` with explicit reduction `% 2 ^ 32`
where 32-bit overflow matters (the SHA-256 core).  Database tables are
lists of rows, sessions are explicit state passing, and network calls are
oracle parameters.
-/

/-! ## SHA-256 (hashlib.sha256), embedded over `Nat` bytes -/

/-- Reduce to a 32-bit word, as Python's fixed-width SHA-256 arithmetic. -/
def w32 (x : Nat) : Nat := x % 4294967296

/-- Rotate a 32-bit word right by `n` bits. -/
def rotr32 (x n : Nat) : Nat := w32 ((x >>> n) ||| (x <<< (32 - n)))

/-- Small sigma 0 of the SHA-256 message schedule. -/
def shaS0 (x : Nat) : Nat := (rotr32 x 7) ^^^ (rotr32 x 18) ^^^ (x >>> 3)

/-- Small sigma 1 of the SHA-256 message schedule. -/
def shaS1 (x : Nat) : Nat := (rotr32 x 17) ^^^ (rotr32 x 19) ^^^ (x >>> 10)

/-- Big sigma 0 of the SHA-256 round function. -/
def shaB0 (x : Nat) : Nat := (rotr32 x 2) ^^^ (rotr32 x 13) ^^^ (rotr32 x 22)

/-- Big sigma 1 of the SHA-256 round function. -/
def shaB1 (x : Nat) : Nat := (rotr32 x 6) ^^^ (rotr32 x 11) ^^^ (rotr32 x 25)

/-- The 64 SHA-256 round constants. -/
def shaK : List Nat :=
  [1116352408, 1899447441, 3049323471, 3921009573,
   961987163, 1508970993, 2453635748, 2870763221,
   3624381080, 310598401, 607225278, 1426881987,
   1925078388, 2162078206, 2614888103, 3248222580,
   3835390401, 4022224774, 264347078, 604807628,
   770255983, 1249150122, 1555081692, 1996064986,
   2554220882, 2821834349, 2952996808, 3210313671,
   3336571891, 3584528711, 113926993, 338241895,
   666307205, 773529912, 1294757372, 1396182291,
   1695183700, 1986661051, 2177026350, 2456956037,
   2730485921, 2820302411, 3259730800, 3345764771,
   3516065817, 3600352804, 4094571909, 275423344,
   430227734, 506948616, 659060556, 883997877,
   958139571, 1322822218, 1537002063, 1747873779,
   1955562222, 2024104815, 2227730452, 2361852424,
   2428436474, 2756734187, 3204031479, 3329325298]

/-- The SHA-256 initial hash state. -/
def shaH0 : List Nat :=
  [1779033703, 3144134277,
   1013904242, 2773480762,
   1359893119, 2600822924,
   528734635, 1541459225]

/-- Pack big-endian byte quadruples into 32-bit words. -/
def bytesToWords : List Nat → List Nat
  | b0 :: b1 :: b2 :: b3 :: rest =>
      ((((b0 <<< 8) ||| b1) <<< 8 ||| b2) <<< 8 ||| b3) :: bytesToWords rest
  | _ => []

/-- Split a word list into 16-word blocks. -/
def wordsToBlocks : List Nat → List (List Nat)
  | w0 :: w1 :: w2 :: w3 :: w4 :: w5 :: w6 :: w7 ::
    w8 :: w9 :: w10 :: w11 :: w12 :: w13 :: w14 :: w15 :: rest =>
      [w0, w1, w2, w3, w4, w5, w6, w7, w8, w9, w10, w11, w12, w13, w14, w15]
        :: wordsToBlocks rest
  | _ => []

/-- Extend a 16-word block by `k` further message-schedule words. -/
def extendSchedule (ws : List Nat) : Nat → List Nat
  | 0 => ws
  | k + 1 =>
      let n := ws.length
      let nw := w32 (shaS1 (ws.getD (n - 2) 0) + ws.getD (n - 7) 0 +
                     shaS0 (ws.getD (n - 15) 0) + ws.getD (n - 16) 0)
      extendSchedule (ws ++ [nw]) k

/-- The 64 SHA-256 rounds over the zipped constants and schedule words. -/
def shaRounds : List Nat → List Nat → Nat → Nat → Nat → Nat → Nat → Nat →
    Nat → Nat → List Nat
  | [], _, a, b, c, d, e, f, g, h => [a, b, c, d, e, f, g, h]
  | _ :: _, [], a, b, c, d, e, f, g, h => [a, b, c, d, e, f, g, h]
  | k :: ks, w :: ws, a, b, c, d, e, f, g, h =>
      let ch := (e &&& f) ^^^ ((4294967295 ^^^ e) &&& g)
      let maj := (a &&& b) ^^^ (a &&& c) ^^^ (b &&& c)
      let t1 := w32 (h + shaB1 e + ch + k + w)
      let t2 := w32 (shaB0 a + maj)
      shaRounds ks ws (w32 (t1 + t2)) a b c (w32 (d + t1)) e f g

/-- Compress one 16-word block into the running hash state. -/
def compressBlock (hs : List Nat) (block : List Nat) : List Nat :=
  let ws := extendSchedule block 48
  match hs with
  | [a, b, c, d, e, f, g, h] =>
      List.zipWith (fun x y => w32 (x + y)) hs (shaRounds shaK ws a b c d e f g h)
  | _ => hs

/-- SHA-256 padding: append 0x80, zeros to 56 mod 64, and the 64-bit
bit length big-endian. -/
def shaPad (msg : List Nat) : List Nat :=
  let len := msg.length
  let zeros := (119 - (len % 64)) % 64
  let bitLen := len * 8
  msg ++ [128] ++ List.replicate zeros 0 ++
    [(bitLen >>> 56) &&& 255, (bitLen >>> 48) &&& 255, (bitLen >>> 40) &&& 255,
     (bitLen >>> 32) &&& 255, (bitLen >>> 24) &&& 255, (bitLen >>> 16) &&& 255,
     (bitLen >>> 8) &&& 255, bitLen &&& 255]

/-- SHA-256 of a byte list, as the eight 32-bit words of the digest. -/
def sha256Words (msg : List Nat) : List Nat :=
  (wordsToBlocks (bytesToWords (shaPad msg))).foldl compressBlock shaH0

/-- Lowercase hex digit for a value below 16. -/
def hexChar (n : Nat) : Char :=
  if n < 10 then Char.ofNat (48 + n) else Char.ofNat (87 + n)

/-- Render one 32-bit word as 8 lowercase hex characters. -/
def wordHex (w : Nat) : List Char :=
  [hexChar ((w >>> 28) &&& 15), hexChar ((w >>> 24) &&& 15),
   hexChar ((w >>> 20) &&& 15), hexChar ((w >>> 16) &&& 15),
   hexChar ((w >>> 12) &&& 15), hexChar ((w >>> 8) &&& 15),
   hexChar ((w >>> 4) &&& 15), hexChar (w &&& 15)]

/-- UTF-8 encoding of one code point (Python's `str.encode()`). -/
def utf8Bytes (c : Nat) : List Nat :=
  if c < 128 then [c]
  else if c < 2048 then [192 + c / 64, 128 + c % 64]
  else if c < 65536 then [224 + c / 4096, 128 + (c / 64) % 64, 128 + c % 64]
  else [240 + c / 262144, 128 + (c / 4096) % 64, 128 + (c / 64) % 64, 128 + c % 64]

/-- Byte encoding of a string, code point by code point. -/
def strBytes (s : String) : List Nat :=
  (s.data.map (fun c => utf8Bytes c.toNat)).flatten

/-- Full hex digest of the SHA-256 of a string,
Python's `hashlib.sha256(key.encode()).hexdigest()`. -/
def sha256Hex (s : String) : String :=
  String.mk ((sha256Words (strBytes s)).map wordHex).flatten

/-! ## The clustering signature (`_simple_signature`)

String operations are carried out on the character lists underlying
`String` so that every function evaluates by kernel reduction. -/

/-- ASCII case folding of one character (`str.lower()`; the inputs in
play are ASCII). -/
def lowerChar (c : Char) : Char :=
  if 65 ≤ c.toNat ∧ c.toNat ≤ 90 then Char.ofNat (c.toNat + 32) else c

/-- Split a character list into maximal whitespace-free words
(`str.split()` with no argument: runs of whitespace separate, leading
and trailing whitespace drops). -/
def splitWsAux : List Char → List Char → List (List Char)
  | [], acc => if acc.isEmpty then [] else [acc.reverse]
  | c :: cs, acc =>
      if c.isWhitespace then
        if acc.isEmpty then splitWsAux cs [] else acc.reverse :: splitWsAux cs []
      else splitWsAux cs (c :: acc)

/-- Interleave a separator between list elements (`sep.join(...)`). -/
def joinWith (sep : List Char) : List (List Char) → List Char
  | [] => []
  | [w] => w
  | w :: ws => w ++ sep ++ joinWith sep ws

/-- Python's `" ".join(...)` over a list of strings. -/
def joinStrings (sep : String) (l : List String) : String :=
  String.mk (joinWith sep.data (l.map (fun s => s.data)))

/-- Whitespace-collapse of Python's `" ".join(text.split())`: split on
whitespace runs, drop empties, rejoin with single spaces. -/
def collapseWs (text : String) : String :=
  String.mk (joinWith [' '] (splitWsAux text.data []))

/-- Truncation to the first `n` characters (Python slicing `s[:n]`). -/
def strTake (s : String) (n : Nat) : String :=
  String.mk (s.data.take n)

/-- Embedding of `_simple_signature(title, body)` from
`app/services/ai_clustering_service.py`: join title and body with a
newline, lowercase, collapse whitespace, truncate to 200 characters,
SHA-256 hex digest truncated to 24 characters. -/
def _simple_signature (title : String) (body : Option String) : String :=
  let text := title ++ "\n" ++ body.getD ""
  let lowered := String.mk (text.data.map lowerChar)
  let key := strTake (collapseWs lowered) 200
  strTake (sha256Hex key) 24

example : sha256Hex "abc"
    = "ba7816bf8f01cfea414140de5dae2223b00361a396177a9cb410ff61f20015ad" := by
  decide

/-! ## Data model (`app/models/raw_report.py`, `ai_issue_group.py`,
`ai_issue_group_report.py`)

Rows are records, tables are lists of rows in physical order, and the
database-generated primary keys are modelled by per-table counters held in
`ClusterDb` (the database guarantees freshness and uniqueness of ids). -/

/-- One row of `raw_reports`. -/
structure RawReport where
  id : Nat
  tenant_id : Nat
  source : String
  external_id : Option String
  title : String
  body : Option String
  url : Option String
  signature : Option String
  created_at : Nat
deriving DecidableEq

/-- One row of `ai_issue_groups` (the severity / tags / confidence /
team columns stay `NULL` throughout the clustering service and are
omitted). -/
structure AIIssueGroup where
  id : Nat
  tenant_id : Nat
  title : String
  summary : Option String
  status : Option String
  frequency : Nat
  sources : List (String × Nat)
deriving DecidableEq

/-- One row of `ai_issue_group_reports` (composite primary key). -/
structure AIIssueGroupReport where
  group_id : Nat
  report_id : Nat
deriving DecidableEq

/-- The clustering-relevant database state. -/
structure ClusterDb where
  reports : List RawReport
  groups : List AIIssueGroup
  links : List AIIssueGroupReport
  nextReportId : Nat
  nextGroupId : Nat
deriving DecidableEq

/-- Replace the first list element satisfying `p` by `f` of it. -/
def updateFirst (p : α → Bool) (f : α → α) : List α → List α
  | [] => []
  | x :: xs => if p x then f x :: xs else x :: updateFirst p f xs

/-! ## `AIIssueClusteringService.ingest_raw_report` -/

/-- The deduplication key of `ingest_raw_report`: same tenant, same
source, same external id. -/
def keyMatch (tenant : Nat) (source : String) (eid : String) (r : RawReport) : Bool :=
  r.tenant_id == tenant && r.source == source && r.external_id == some eid

/-- Embedding of `AIIssueClusteringService.ingest_raw_report`.  When a
truthy `external_id` is given and a row with the same
(tenant, source, external_id) exists, that row's title/body/url/signature
are updated in place; otherwise a fresh row is inserted.  `created`
stands for the database's `created_at` default of the new row. -/
def ingest_raw_report (tenant : Nat) (source : String) (external_id : Option String)
    (title : String) (body url : Option String) (created : Nat)
    (db : ClusterDb) : ClusterDb :=
  let dedup : Bool := match external_id with
    | some e => e != "" && db.reports.any (keyMatch tenant source e)
    | none => false
  if dedup then
    match external_id with
    | some e =>
        let upd : RawReport → RawReport := fun r =>
          { r with title := title, body := body, url := url,
                   signature := some (_simple_signature title body) }
        { db with reports := updateFirst (keyMatch tenant source e) upd db.reports }
    | none => db
  else
    { db with
      reports := db.reports ++
        [{ id := db.nextReportId, tenant_id := tenant, source := source,
           external_id := external_id, title := title, body := body, url := url,
           signature := some (_simple_signature title body), created_at := created }],
      nextReportId := db.nextReportId + 1 }

/-! ## `AIIssueClusteringService._summarize_group` (deterministic fallback)

The Claude API path of `_summarize_group` is an outbound network call
(the spec's external Summarizer); the embedded function is the
deterministic fallback taken when no `CLAUDE_API_KEY` is configured
(lines 181-187) — the identical logic also runs when the API call fails
(lines 259-263, with default title "Fallback Issue"). -/

/-- Fallback summarization: title of the first report in list order (or
"Untitled Issue" when falsy) and the " | "-join of the first three
non-empty bodies (None when there are none). -/
def _summarize_group_fallback (reports : List RawReport) : String × Option String :=
  let title := match reports.head? with
    | some r => if r.title = "" then "Untitled Issue" else r.title
    | none => "Untitled Issue"
  let descriptions := reports.filterMap (fun r => match r.body with
    | some b => if b = "" then none else some b
    | none => none)
  let summary := if descriptions.isEmpty then none
    else some (joinStrings " | " (descriptions.take 3))
  (title, summary)

/-! ## `AIIssueClusteringService.recluster` -/

/-- Signature of a report when truthy (`if r.signature:`). -/
def sigKey (r : RawReport) : Option String :=
  match r.signature with
  | none => none
  | some s => if s = "" then none else some s

/-- Append a report under its signature, keeping first-occurrence key
order (Python dict insertion order). -/
def insertGrouped : List (String × List RawReport) → String → RawReport →
    List (String × List RawReport)
  | [], s, r => [(s, [r])]
  | (k, v) :: rest, s, r =>
      if k = s then (k, v ++ [r]) :: rest else (k, v) :: insertGrouped rest s r

/-- Group reports by signature (`sig_to_reports`), skipping falsy
signatures. -/
def groupBySig (rs : List RawReport) : List (String × List RawReport) :=
  rs.foldl (fun acc r => match sigKey r with
    | none => acc
    | some s => insertGrouped acc s r) []

/-- The `signature_marker` of `recluster`. -/
def sigMarker (sig : String) : String := "sig:" ++ sig

/-- The stored summary of a group: marker alone for a falsy summary,
otherwise marker, "|", summary. -/
def summaryWithSig (sig : String) (summary : Option String) : String :=
  match summary with
  | some s => if s = "" then sigMarker sig else sigMarker sig ++ "|" ++ s
  | none => sigMarker sig

/-- The `LIKE "sig:<sig>%"` lookup of an existing group for a signature,
restricted to the tenant. -/
def matchesMarker (tenant : Nat) (sig : String) (g : AIIssueGroup) : Bool :=
  g.tenant_id == tenant &&
    (match g.summary with
     | some s => (sigMarker sig).data.isPrefixOf s.data
     | none => false)

/-- Per-provider counts in first-occurrence order
(`defaultdict(int)` iteration). -/
def bumpSource : List (String × Nat) → String → List (String × Nat)
  | [], s => [(s, 1)]
  | (k, c) :: rest, s => if k = s then (k, c + 1) :: rest else (k, c) :: bumpSource rest s

/-- The `sources` roll-up of a member list. -/
def sourceCounts (items : List RawReport) : List (String × Nat) :=
  items.foldl (fun acc r => bumpSource acc r.source) []

/-- Mutable state threaded through the signature loop of `recluster`. -/
structure RecState where
  groups : List AIIssueGroup
  links : List AIIssueGroupReport
  nextGroupId : Nat
  created : Nat
  updated : Nat
deriving DecidableEq

/-- The group row `recluster` creates for a new signature (frequency and
sources are written later in the same loop body; the constructed row
carries their final values). -/
def mkGroup (tenant gid : Nat) (sig : String) (ts : String × Option String)
    (items : List RawReport) : AIIssueGroup :=
  { id := gid, tenant_id := tenant, title := ts.1,
    summary := some (summaryWithSig sig ts.2), status := some "open",
    frequency := items.length, sources := sourceCounts items }

/-- The in-place refresh `recluster` applies to an existing group: new
title and summary, recomputed roll-ups. -/
def updGroup (ts : String × Option String) (sig : String)
    (items : List RawReport) (g : AIIssueGroup) : AIIssueGroup :=
  { g with title := ts.1, summary := some (summaryWithSig sig ts.2),
           frequency := items.length, sources := sourceCounts items }

/-- One iteration of the signature loop of `recluster`: summarize the
members, find-or-create the group by its signature marker, replace its
membership links, refresh the roll-ups. -/
def reclusterStep (summarize : List RawReport → String × Option String)
    (tenant : Nat) (st : RecState) (sg : String × List RawReport) : RecState :=
  let sig := sg.1
  let items := sg.2
  let ts := summarize items
  match st.groups.find? (matchesMarker tenant sig) with
  | none =>
      let gid := st.nextGroupId
      { groups := st.groups ++ [mkGroup tenant gid sig ts items],
        links := st.links.filter (fun l => l.group_id != gid) ++
          items.map (fun r => { group_id := gid, report_id := r.id }),
        nextGroupId := gid + 1, created := st.created + 1, updated := st.updated }
  | some g =>
      { groups := updateFirst (matchesMarker tenant sig)
          (fun _ => updGroup ts sig items g) st.groups,
        links := st.links.filter (fun l => l.group_id != g.id) ++
          items.map (fun r => { group_id := g.id, report_id := r.id }),
        nextGroupId := st.nextGroupId, created := st.created,
        updated := st.updated + 1 }

/-- Orphan cleanup: delete the tenant's groups whose id appears in no
link row (other tenants' groups are untouched). -/
def orphanFilter (tenant : Nat) (links : List AIIssueGroupReport)
    (groups : List AIIssueGroup) : List AIIssueGroup :=
  groups.filter (fun g => !(g.tenant_id == tenant) || links.any (fun l => l.group_id == g.id))

/-- Result of one `recluster` call: the new database state and the
returned `created` / `updated` / `groups` counters. -/
structure RecResult where
  state : ClusterDb
  created : Nat
  updated : Nat
  groupCount : Nat
deriving DecidableEq

/-- Embedding of `AIIssueClusteringService.recluster`, parameterized by
the summarizer (a deterministic function standing for
`_summarize_group`; instantiate with `_summarize_group_fallback` for the
no-API-key run).  Loads the tenant's reports, groups them by signature,
runs the signature loop, then deletes the tenant's orphaned groups. -/
def recluster (summarize : List RawReport → String × Option String)
    (tenant : Nat) (db : ClusterDb) : RecResult :=
  let tenantReports := db.reports.filter (fun r => r.tenant_id == tenant)
  let sgs := groupBySig tenantReports
  let st0 : RecState :=
    { groups := db.groups, links := db.links, nextGroupId := db.nextGroupId,
      created := 0, updated := 0 }
  let st := sgs.foldl (reclusterStep summarize tenant) st0
  let db' : ClusterDb :=
    { db with groups := orphanFilter tenant st.links st.groups,
              links := st.links, nextGroupId := st.nextGroupId }
  { state := db', created := st.created, updated := st.updated,
    groupCount := sgs.length }

/-! ## Data model (`app/models/tenant_integration.py`)

The provider credential bundle lives in the integration's JSON `config`
column; the fields HubSpot token handling reads are modelled explicitly
(`token_created_at`, an ISO timestamp string in the source, becomes
seconds since the epoch). -/

/-- The HubSpot slice of the integration's `config` JSON blob. -/
structure HubConfig where
  access_token : Option String
  refresh_token : Option String
  token_created_at : Option Nat
  expires_in : Option Nat
deriving DecidableEq

/-- One row of `tenant_integrations`. -/
structure TenantIntegration where
  id : Nat
  tenant_id : Nat
  integration_type : String
  is_active : Bool
  last_synced_at : Option Nat
  last_sync_status : Option String
  sync_error_message : Option String
  config : HubConfig
deriving DecidableEq

/-! ## `SchedulerService` (`app/services/scheduler_service.py`)

`self.sync_tasks` is a dict from integration id to an asyncio task; its
observable content is the pair (id, task.done()), modelled as an
association list with dict key semantics. -/

/-- Look up the `done` flag of the task recorded for an integration id. -/
def taskLookup (tasks : List (Nat × Bool)) (i : Nat) : Option Bool :=
  (tasks.find? (fun t => t.1 == i)).map (fun t => t.2)

/-- Remove the task entry of an integration id (`del self.sync_tasks[id]`). -/
def taskRemove (tasks : List (Nat × Bool)) (i : Nat) : List (Nat × Bool) :=
  tasks.filter (fun t => t.1 != i)

/-- Record a fresh task for an integration id (dict assignment). -/
def taskSet (tasks : List (Nat × Bool)) (i : Nat) (done : Bool) : List (Nat × Bool) :=
  taskRemove tasks i ++ [(i, done)]

/-- The per-provider cadences `self.sync_intervals` in seconds, with the
`"default"` fallback of `.get`. -/
def sync_intervals (itype : String) : Nat :=
  if itype = "hubspot" then 300 else if itype = "jira" then 600 else 900

/-- Outcome of `_check_and_sync_integration`: whether a sync task was
launched, and the task map afterwards. -/
structure CheckResult where
  launched : Bool
  tasks : List (Nat × Bool)
deriving DecidableEq

/-- Embedding of `SchedulerService._check_and_sync_integration`.
`time_since_sync` is infinite when `last_synced_at` is unset, so the
cadence test passes vacuously in that case; a new task is launched only
when no unfinished task is recorded for the integration id. -/
def _check_and_sync_integration (tasks : List (Nat × Bool))
    (integ : TenantIntegration) (now : Nat) : CheckResult :=
  let due : Bool := match integ.last_synced_at with
    | some ts => decide (now - ts ≥ sync_intervals integ.integration_type)
    | none => true
  if due then
    match taskLookup tasks integ.id with
    | some false => { launched := false, tasks := tasks }
    | some true =>
        let tasks' := taskRemove tasks integ.id
        { launched := true, tasks := taskSet tasks' integ.id false }
    | none => { launched := true, tasks := taskSet tasks integ.id false }
  else { launched := false, tasks := tasks }

/-- Outcome of one scheduler tick: ids launched, task map afterwards. -/
structure TickResult where
  launchedIds : List Nat
  tasks : List (Nat × Bool)
deriving DecidableEq

/-- One iteration of the loop body of `_sync_all_tenants`: check one
integration, record its id when a task was launched. -/
def tickStep (now : Nat) (acc : TickResult) (i : TenantIntegration) : TickResult :=
  let r := _check_and_sync_integration acc.tasks i now
  { launchedIds := if r.launched then acc.launchedIds ++ [i.id] else acc.launchedIds,
    tasks := r.tasks }

/-- Embedding of `SchedulerService._sync_all_tenants` (one scheduler
tick): select the integrations with `is_active = TRUE` and
`last_synced_at IS NOT NULL`, then run `_check_and_sync_integration` on
each in order. -/
def _sync_all_tenants (integrations : List TenantIntegration)
    (tasks : List (Nat × Bool)) (now : Nat) : TickResult :=
  let selected := integrations.filter (fun i => i.is_active && i.last_synced_at.isSome)
  selected.foldl (tickStep now) { launchedIds := [], tasks := tasks }

/-- Observable outcome of `trigger_manual_sync`: either no active
integration was found, or more than one matched
(`scalar_one_or_none` raises), or the sync is not implemented for the
provider, or a sync of the given kind actually ran for the integration. -/
inductive ManualSyncResult
  | noActiveIntegration
  | multipleActive
  | notImplemented (itype : String)
  | ran (integrationId : Nat) (syncType : String)
deriving DecidableEq

/-- Embedding of `SchedulerService.trigger_manual_sync`.  The method
receives the scheduler state (so `tasks` is in scope, as
`self.sync_tasks` is in the source) yet never consults it: it looks up
the active integration and, for HubSpot, immediately awaits
`sync_full` / `sync_incremental`. -/
def trigger_manual_sync (tasks : List (Nat × Bool))
    (integrations : List TenantIntegration) (tenant : Nat) (itype : String)
    (syncType : String) : ManualSyncResult :=
  let _ := tasks
  match integrations.filter
      (fun i => i.tenant_id == tenant && i.integration_type == itype && i.is_active) with
  | [] => .noActiveIntegration
  | [integ] =>
      if itype = "hubspot" then .ran integ.id syncType else .notImplemented itype
  | _ :: _ :: _ => .multipleActive

/-! ## `HubSpotService` (`app/services/hubspot_service.py`)

Outbound HTTP is modelled by oracles: `validate` stands for the token
introspection probe `_validate_token`, `refreshResp` for the parsed JSON
body of the OAuth token endpoint response indexed by the number of
refresh calls already made in this operation (`none` = HTTP failure /
exception), `envCreds` for the presence of the `HUBSPOT_CLIENT_ID` /
`HUBSPOT_CLIENT_SECRET` environment variables. -/

/-- Parsed JSON body of a successful OAuth token-endpoint response. -/
structure RefreshResp where
  access_token : Option String
  refresh_token : Option String
  expires_in : Option Nat
deriving DecidableEq

/-- Embedding of `HubSpotService._refresh_access_token`: returns the new
access token together with the committed config update, or `none` on any
failure (missing env credentials, HTTP error, response without an access
token).  The new bundle records `token_created_at = now` and the
response's `expires_in` (default 3600), and keeps the old refresh token
when the response carries none. -/
def _refresh_access_token (envCreds : Bool) (resp : Option RefreshResp)
    (refreshToken : String) (cfg : HubConfig) (now : Nat) :
    Option (String × HubConfig) :=
  if !envCreds then none
  else match resp with
    | none => none
    | some r =>
        match r.access_token with
        | none => none
        | some tok =>
            let cfg' : HubConfig := { cfg with
              access_token := some tok,
              refresh_token := some (r.refresh_token.getD refreshToken),
              expires_in := some (r.expires_in.getD 3600),
              token_created_at := some now }
            some (tok, cfg')

/-- The expiry test of `_get_valid_token`
(`if token_created_at and expires_in: ... now + buffer >= expires_at`):
true when a creation timestamp and a nonzero lifetime are recorded and
the token is within five minutes of expiry. -/
def tokenExpiredSoon (cfg : HubConfig) (now : Nat) : Bool :=
  match cfg.token_created_at with
  | some createdAt =>
      let ei := cfg.expires_in.getD 3600
      ei != 0 && decide (now + 300 ≥ createdAt + ei)
  | none => false

/-- Outcome alternatives of `_get_valid_token`: the returned token, or
the message of the raised error. -/
inductive TokenOutcome
  | ok (token : String)
  | err (msg : String)
deriving DecidableEq

/-- Outcome of `_get_valid_token`: the returned token or the raised
error, the integration row afterwards (config committed on refresh
success, failure status committed on validation failure), and how many
times `_refresh_access_token` was invoked. -/
structure TokenResult where
  outcome : TokenOutcome
  integration : TenantIntegration
  refreshCalls : Nat
deriving DecidableEq

/-- Embedding of `HubSpotService._get_valid_token`.  If the stored
bundle is within five minutes of expiry a refresh is attempted; if that
does not produce a token the current token is probed live, and on probe
failure a refresh is attempted once more before the integration is
marked `last_sync_status = "failed"` and an auth error is raised. -/
def _get_valid_token (integ : TenantIntegration) (validate : String → Bool)
    (refreshResp : Nat → Option RefreshResp) (envCreds : Bool) (now : Nat) :
    TokenResult :=
  let failedInteg : TenantIntegration :=
    { integ with last_sync_status := some "failed",
                 sync_error_message := some "Invalid or expired access token" }
  if !integ.is_active then
    { outcome := .err "integration inactive", integration := integ, refreshCalls := 0 }
  else match integ.config.access_token with
  | none =>
      { outcome := .err "No HubSpot access token configured",
        integration := integ, refreshCalls := 0 }
  | some accessToken =>
      let expiredSoon : Bool := tokenExpiredSoon integ.config now
      let attempt1 : Option (String × HubConfig) :=
        if expiredSoon then
          match integ.config.refresh_token with
          | some rt => _refresh_access_token envCreds (refreshResp 0) rt integ.config now
          | none => none
        else none
      let calls1 : Nat :=
        if expiredSoon && integ.config.refresh_token.isSome then 1 else 0
      match attempt1 with
      | some tc =>
          { outcome := .ok tc.1, integration := { integ with config := tc.2 },
            refreshCalls := calls1 }
      | none =>
          if validate accessToken then
            { outcome := .ok accessToken, integration := integ, refreshCalls := calls1 }
          else
            match integ.config.refresh_token with
            | some rt =>
                match _refresh_access_token envCreds (refreshResp calls1) rt integ.config now with
                | some tc =>
                    { outcome := .ok tc.1,
                      integration := { integ with config := tc.2 },
                      refreshCalls := calls1 + 1 }
                | none =>
                    { outcome := .err "Invalid or expired HubSpot access token",
                      integration := failedInteg, refreshCalls := calls1 + 1 }
            | none =>
                { outcome := .err "Invalid or expired HubSpot access token",
                  integration := failedInteg, refreshCalls := calls1 }

/-- One HubSpot ticket as returned by the CRM list endpoint, with the
properties the sync reads. -/
structure HubTicket where
  id : String
  subject : Option String
  content : Option String
  hs_lastmodifieddate : Nat
deriving DecidableEq

/-- Paging loop of `list_tickets` over the provider's successive result
pages, accumulating until the optional overall `limit` is reached. -/
def listTicketsPages : List (List HubTicket) → Option Nat → Nat → List HubTicket
  | [], _, _ => []
  | page :: rest, limit, total =>
      match limit with
      | some l =>
          if total + page.length ≥ l then page.take (l - total)
          else page ++ listTicketsPages rest (some l) (total + page.length)
      | none => page ++ listTicketsPages rest none (total + page.length)

/-- Embedding of `HubSpotService.list_tickets` (success path): the
concatenation of all provider pages, truncated to `limit` when given.
The method takes no `since` argument and applies no date filter. -/
def list_tickets (pages : List (List HubTicket)) (limit : Option Nat) : List HubTicket :=
  listTicketsPages pages limit 0

/-- Title given to an ingested ticket:
`props.get("subject") or f"Ticket {ticket['id']}"`. -/
def ticketTitle (t : HubTicket) : String :=
  match t.subject with
  | some s => if s = "" then "Ticket " ++ t.id else s
  | none => "Ticket " ++ t.id

/-- Observable outcome of the ingestion slice of `_sync_with_tracking`:
the resolved `since` local, the external ids processed, and the raw
report store afterwards. -/
structure SyncOutcome where
  since : Option Nat
  processedIds : List String
  db : ClusterDb
deriving DecidableEq

/-- Embedding of the fetch-and-ingest slice of
`HubSpotService._sync_with_tracking`: resolve `since` from
`last_synced_at` for an incremental sync, fetch tickets via
`list_tickets` (which receives no date bound), and ingest every fetched
ticket as a raw report keyed by its HubSpot id.  The issues-table
upsert, the reclustering call and the SyncEvent bookkeeping of the
method sit downstream of the property modelled here. -/
def _sync_with_tracking (integ : TenantIntegration)
    (pages : List (List HubTicket)) (syncType : String) (sinceArg : Option Nat)
    (now : Nat) (db : ClusterDb) : SyncOutcome :=
  let since := if sinceArg.isNone && syncType = "incremental"
    then integ.last_synced_at else sinceArg
  let tickets := list_tickets pages none
  let db' := tickets.foldl (fun d t =>
    ingest_raw_report integ.tenant_id "hubspot" (some t.id) (ticketTitle t)
      t.content none now d) db
  { since := since, processedIds := tickets.map (fun t => t.id), db := db' }

/-! ## General lemmas about the embedded list operations -/

/-- Membership in `updateFirst`: if some element satisfies `p`, the
updated list contains the image under `f` of the first such element. -/
lemma updateFirst_of_any {p : α → Bool} {f : α → α} {l : List α}
    (h : l.any p = true) :
    ∃ x ∈ l, p x = true ∧ f x ∈ updateFirst p f l := by
  induction l with
  | nil => simp at h
  | cons a t ih =>
      by_cases ha : p a = true
      · exact ⟨a, by simp, ha, by simp [updateFirst, ha]⟩
      · simp [List.any_cons, ha] at h
        obtain ⟨x, hx, hpx, hmem⟩ := ih (by simpa using h)
        exact ⟨x, by simp [hx], hpx, by simp [updateFirst, ha, hmem]⟩

/-- Filtering after `updateFirst` with a `p`-preserving update: a unique
`p`-element is replaced by its image. -/
lemma filter_updateFirst_singleton {p : α → Bool} {f : α → α} {l : List α} {r : α}
    (hpf : ∀ x, p (f x) = p x) (h : l.filter p = [r]) :
    (updateFirst p f l).filter p = [f r] := by
  induction l with
  | nil => simp at h
  | cons a t ih =>
      by_cases ha : p a = true
      · have hfil : List.filter p (a :: t) = a :: t.filter p := by
          simp [List.filter_cons, ha]
        rw [hfil] at h
        obtain ⟨rfl, htail⟩ : a = r ∧ t.filter p = [] := by
          constructor
          · exact (List.cons.injEq _ _ _ _ ▸ h).1
          · exact (List.cons.injEq _ _ _ _ ▸ h).2
        simp [updateFirst, ha, List.filter_cons, hpf, htail]
      · have hfil : List.filter p (a :: t) = t.filter p := by
          simp [List.filter_cons, ha]
        rw [hfil] at h
        simp [updateFirst, ha, List.filter_cons, ih h]

/-- A filter equal to the empty list means no element satisfies `p`. -/
lemma any_eq_false_of_filter_nil {p : α → Bool} {l : List α}
    (h : l.filter p = []) : l.any p = false := by
  induction l with
  | nil => simp
  | cons a t ih =>
      rw [List.filter_cons] at h
      by_cases ha : p a = true
      · rw [if_pos ha] at h
        simp at h
      · rw [if_neg ha] at h
        have ha' : p a = false := by
          cases hpa : p a
          · rfl
          · exact absurd hpa ha
        rw [List.any_cons, ha', ih h]
        rfl

/-- A nonempty filter means some element satisfies `p`. -/
lemma any_eq_true_of_filter_cons {p : α → Bool} {l : List α} {r : α} {rs : List α}
    (h : l.filter p = r :: rs) : l.any p = true := by
  have hm : r ∈ l.filter p := by rw [h]; exact List.mem_cons_self _ _
  exact List.any_eq_true.mpr
    ⟨r, (List.mem_filter.mp hm).1, (List.mem_filter.mp hm).2⟩

/-! ## Claim C8 — shape of the stored signature -/

/-- The empty clustering database. -/
def emptyClusterDb : ClusterDb :=
  { reports := [], groups := [], links := [], nextReportId := 1, nextGroupId := 1 }

/-- Normalization of one field as the spec words it: lowercase, collapse
whitespace runs, truncate to the fixed prefix length. -/
def specNormalize (s : String) : String :=
  strTake (collapseWs (String.mk (s.data.map lowerChar))) 200

/-- The signature formula as claim C8 words it: the hash of the
newline-joined pair of independently normalized title and body,
truncated to 24 characters. -/
def specSignatureOfPair (title : String) (body : Option String) : String :=
  strTake (sha256Hex (specNormalize title ++ "\n" ++ specNormalize (body.getD ""))) 24

/-- The fresh row inserted by the non-dedup branch of
`ingest_raw_report`. -/
def newRawReport (tenant : Nat) (source : String) (external_id : Option String)
    (title : String) (body url : Option String) (created rid : Nat) : RawReport :=
  { id := rid, tenant_id := tenant, source := source, external_id := external_id,
    title := title, body := body, url := url,
    signature := some (_simple_signature title body), created_at := created }

/-- C8 (counterexample): ingesting title "a", body "b" stores the
signature `_simple_signature "a" "b"` (the hash of "a b": the newline
separating title from body is itself collapsed to a space), which
differs from the claim's factored formula (the hash of "a\nb"). -/
theorem C8_counterexample :
    ((ingest_raw_report 1 "hubspot" (some "X") "a" (some "b") none 0
        emptyClusterDb).reports.map (fun r => r.signature))
      = [some (_simple_signature "a" (some "b"))] ∧
    _simple_signature "a" (some "b") = strTake (sha256Hex "a b") 24 ∧
    specSignatureOfPair "a" (some "b") = strTake (sha256Hex ("a" ++ "\n" ++ "b")) 24 ∧
    _simple_signature "a" (some "b") ≠ specSignatureOfPair "a" (some "b") := by
  decide

/-- C8 (amended): the stored signature of every ingested report equals
`hash(normalize(title + "\n" + body))[:24]` — normalization (lowercase,
whitespace collapse, truncation to 200 characters) applies to the
newline-joined concatenation, whose separator collapses into a single
space, not to the two parts independently. -/
theorem C8_amended (tenant : Nat) (source : String) (external_id : Option String)
    (title : String) (body url : Option String) (created : Nat) (db : ClusterDb) :
    _simple_signature title body
      = strTake (sha256Hex (strTake (collapseWs
          (String.mk ((title ++ "\n" ++ body.getD "").data.map lowerChar))) 200)) 24 ∧
    ∃ r ∈ (ingest_raw_report tenant source external_id title body url created
        db).reports,
      r.title = title ∧ r.body = body ∧
      r.signature = some (_simple_signature title body) := by
  refine ⟨rfl, ?_⟩
  cases external_id with
  | none =>
      refine ⟨newRawReport tenant source none title body url created db.nextReportId,
        ?_, rfl, rfl, rfl⟩
      show _ ∈ db.reports ++ [newRawReport tenant source none title body url created
        db.nextReportId]
      simp
  | some e =>
      by_cases hd : (e != "" && db.reports.any (keyMatch tenant source e)) = true
      · have hany : db.reports.any (keyMatch tenant source e) = true := by
          have hd' := hd
          rw [Bool.and_eq_true] at hd'
          exact hd'.2
        let upd : RawReport → RawReport := fun r =>
          { r with title := title, body := body, url := url,
                   signature := some (_simple_signature title body) }
        obtain ⟨x, hxl, hpx, hmem⟩ :=
          @updateFirst_of_any _ (keyMatch tenant source e) upd db.reports hany
        refine ⟨upd x, ?_, rfl, rfl, rfl⟩
        have hrep : (ingest_raw_report tenant source (some e) title body url created
            db).reports = updateFirst (keyMatch tenant source e) upd db.reports := by
          simp [ingest_raw_report, hd]
        rw [hrep]
        exact hmem
      · refine ⟨newRawReport tenant source (some e) title body url created
          db.nextReportId, ?_, rfl, rfl, rfl⟩
        have hrep : (ingest_raw_report tenant source (some e) title body url created
            db).reports = db.reports ++ [newRawReport tenant source (some e) title body
            url created db.nextReportId] := by
          simp [ingest_raw_report, hd, newRawReport]
        rw [hrep]
        simp

/-! ## Claim C10 — reports without an external id are never deduplicated -/

/-- C10: with `external_id = None` no deduplication lookup happens and a
row is inserted unconditionally: two identical calls append two distinct
rows (fresh primary keys) after the existing table contents. -/
theorem C10_theorem (tenant : Nat) (source title : String) (body url : Option String)
    (c1 c2 : Nat) (db : ClusterDb) :
    (ingest_raw_report tenant source none title body url c2
        (ingest_raw_report tenant source none title body url c1 db)).reports
      = db.reports ++
        [newRawReport tenant source none title body url c1 db.nextReportId,
         newRawReport tenant source none title body url c2 (db.nextReportId + 1)] ∧
    (newRawReport tenant source none title body url c1 db.nextReportId).id ≠
      (newRawReport tenant source none title body url c2 (db.nextReportId + 1)).id := by
  constructor
  · simp [ingest_raw_report, newRawReport]
  · simp [newRawReport]

/-- The in-place update `ingest_raw_report` applies to a matched row:
latest title, body, url and recomputed signature. -/
def updTitleBody (t : String) (b u : Option String) (r : RawReport) : RawReport :=
  { r with title := t, body := b, url := u,
           signature := some (_simple_signature t b) }

/-- Unfolding `ingest_raw_report` on the dedup path. -/
lemma ingest_update_eq (tenant : Nat) (source eid t : String) (b u : Option String)
    (c : Nat) (db : ClusterDb) (hne : (eid != "") = true)
    (hany : db.reports.any (keyMatch tenant source eid) = true) :
    ingest_raw_report tenant source (some eid) t b u c db
      = { db with
          reports := updateFirst (keyMatch tenant source eid)
            (updTitleBody t b u) db.reports } := by
  simp [ingest_raw_report, hne, hany]
  rfl

/-- Unfolding `ingest_raw_report` on the insert path (keyed, no match). -/
lemma ingest_insert_eq (tenant : Nat) (source eid t : String) (b u : Option String)
    (c : Nat) (db : ClusterDb) (hne : (eid != "") = true)
    (hany : db.reports.any (keyMatch tenant source eid) = false) :
    ingest_raw_report tenant source (some eid) t b u c db
      = { db with
          reports := db.reports ++
            [newRawReport tenant source (some eid) t b u c db.nextReportId],
          nextReportId := db.nextReportId + 1 } := by
  simp [ingest_raw_report, hne, hany, newRawReport]

/-! ## Claim C9 — keyed upsert is idempotent on row count -/

/-- C9: when at most one row carries a given (tenant, source,
external_id) key, upserting that key twice leaves exactly one row for
the key, carrying title, body, url and signature from the second call. -/
theorem C9_theorem (tenant : Nat) (source eid t1 t2 : String)
    (b1 b2 u1 u2 : Option String) (c1 c2 : Nat) (db : ClusterDb)
    (heid : eid ≠ "")
    (hkey : (db.reports.filter (keyMatch tenant source eid)).length ≤ 1) :
    ∃ r, ((ingest_raw_report tenant source (some eid) t2 b2 u2 c2
        (ingest_raw_report tenant source (some eid) t1 b1 u1 c1 db)).reports.filter
          (keyMatch tenant source eid)) = [r] ∧
      r.title = t2 ∧ r.body = b2 ∧ r.url = u2 ∧
      r.signature = some (_simple_signature t2 b2) := by
  have hne : (eid != "") = true := by simpa using heid
  have hpf1 : ∀ r, keyMatch tenant source eid (updTitleBody t1 b1 u1 r)
      = keyMatch tenant source eid r := by
    intro r
    simp [keyMatch, updTitleBody]
  have hpf2 : ∀ r, keyMatch tenant source eid (updTitleBody t2 b2 u2 r)
      = keyMatch tenant source eid r := by
    intro r
    simp [keyMatch, updTitleBody]
  match hc : db.reports.filter (keyMatch tenant source eid) with
  | r0 :: r1 :: rest =>
      rw [hc] at hkey
      simp at hkey
  | [r0] =>
      have hany : db.reports.any (keyMatch tenant source eid) = true :=
        any_eq_true_of_filter_cons hc
      have h1 : (ingest_raw_report tenant source (some eid) t1 b1 u1 c1 db).reports
          = updateFirst (keyMatch tenant source eid) (updTitleBody t1 b1 u1) db.reports := by
        rw [ingest_update_eq tenant source eid t1 b1 u1 c1 db hne hany]
      have hf1 : ((ingest_raw_report tenant source (some eid) t1 b1 u1 c1
          db).reports.filter (keyMatch tenant source eid)) = [updTitleBody t1 b1 u1 r0] := by
        rw [h1]
        exact filter_updateFirst_singleton hpf1 hc
      have hany1 : (ingest_raw_report tenant source (some eid) t1 b1 u1 c1
          db).reports.any (keyMatch tenant source eid) = true :=
        any_eq_true_of_filter_cons hf1
      have h2 : (ingest_raw_report tenant source (some eid) t2 b2 u2 c2
          (ingest_raw_report tenant source (some eid) t1 b1 u1 c1 db)).reports
          = updateFirst (keyMatch tenant source eid) (updTitleBody t2 b2 u2)
            (ingest_raw_report tenant source (some eid) t1 b1 u1 c1 db).reports := by
        rw [ingest_update_eq tenant source eid t2 b2 u2 c2 _ hne hany1]
      refine ⟨updTitleBody t2 b2 u2 (updTitleBody t1 b1 u1 r0), ?_, rfl, rfl, rfl, rfl⟩
      rw [h2]
      exact filter_updateFirst_singleton hpf2 hf1
  | [] =>
      have hany : db.reports.any (keyMatch tenant source eid) = false :=
        any_eq_false_of_filter_nil hc
      have h1 : (ingest_raw_report tenant source (some eid) t1 b1 u1 c1 db).reports
          = db.reports ++
            [newRawReport tenant source (some eid) t1 b1 u1 c1 db.nextReportId] := by
        rw [ingest_insert_eq tenant source eid t1 b1 u1 c1 db hne hany]
      have hself : keyMatch tenant source eid
          (newRawReport tenant source (some eid) t1 b1 u1 c1 db.nextReportId) = true := by
        simp [keyMatch, newRawReport]
      have hf1 : ((ingest_raw_report tenant source (some eid) t1 b1 u1 c1
          db).reports.filter (keyMatch tenant source eid)) =
          [newRawReport tenant source (some eid) t1 b1 u1 c1 db.nextReportId] := by
        rw [h1, List.filter_append, hc, List.filter_cons, hself]
        simp
      have hany1 : (ingest_raw_report tenant source (some eid) t1 b1 u1 c1
          db).reports.any (keyMatch tenant source eid) = true :=
        any_eq_true_of_filter_cons hf1
      have h2 : (ingest_raw_report tenant source (some eid) t2 b2 u2 c2
          (ingest_raw_report tenant source (some eid) t1 b1 u1 c1 db)).reports
          = updateFirst (keyMatch tenant source eid) (updTitleBody t2 b2 u2)
            (ingest_raw_report tenant source (some eid) t1 b1 u1 c1 db).reports := by
        rw [ingest_update_eq tenant source eid t2 b2 u2 c2 _ hne hany1]
      refine ⟨updTitleBody t2 b2 u2
        (newRawReport tenant source (some eid) t1 b1 u1 c1 db.nextReportId),
        ?_, rfl, rfl, rfl, rfl⟩
      rw [h2]
      exact filter_updateFirst_singleton hpf2 hf1

/-- C9 (witness): two upserts of key (1, "hubspot", "X") into the empty
store leave exactly one row for the key with the second call's fields. -/
theorem C9_witness :
    (("X" : String) ≠ "") ∧
    ((emptyClusterDb.reports.filter (keyMatch 1 "hubspot" "X")).length ≤ 1) ∧
    (∃ r, ((ingest_raw_report 1 "hubspot" (some "X") "t2" none none 2
        (ingest_raw_report 1 "hubspot" (some "X") "t1" none none 1
          emptyClusterDb)).reports.filter (keyMatch 1 "hubspot" "X")) = [r] ∧
      r.title = "t2" ∧ r.body = none ∧ r.url = none ∧
      r.signature = some (_simple_signature "t2" none)) :=
  ⟨by decide, by decide,
   C9_theorem 1 "hubspot" "X" "t1" "t2" none none none none 1 2 emptyClusterDb
     (by decide) (by decide)⟩

/-! ## Scheduler lemmas shared by the single-flight and cadence claims -/

/-- Looking up a key other than the one just set is unchanged. -/
lemma taskLookup_taskSet_ne {tasks : List (Nat × Bool)} {i j : Nat} {d : Bool}
    (h : j ≠ i) : taskLookup (taskSet tasks i d) j = taskLookup tasks j := by
  unfold taskLookup taskSet taskRemove
  rw [List.find?_append]
  have hij : ((i, d).1 == j) = false :=
    beq_eq_false_iff_ne.mpr (fun hc => h hc.symm)
  have hlast : List.find? (fun t => t.1 == j) [(i, d)] = none := by
    rw [List.find?_cons, hij]
    rfl
  rw [hlast]
  have hfil : List.find? (fun t => t.1 == j) (tasks.filter (fun t => t.1 != i))
      = List.find? (fun t => t.1 == j) tasks := by
    induction tasks with
    | nil => rfl
    | cons a t ih =>
        by_cases ha : a.1 = i
        · have hfa : (a.1 != i) = false := by simp [ha]
          have haj : (a.1 == j) = false := by
            rw [ha]
            exact beq_eq_false_iff_ne.mpr (fun hc => h hc.symm)
          simp only [List.filter_cons, hfa, if_neg Bool.false_ne_true]
          rw [List.find?_cons, haj, ih]
        · have hfa : (a.1 != i) = true := by simp [ha]
          simp only [List.filter_cons, hfa, eq_self_iff_true, if_true]
          rw [List.find?_cons, List.find?_cons]
          cases haj : (a.1 == j) with
          | true => rfl
          | false => exact ih
  rw [hfil]
  cases List.find? (fun t => t.1 == j) tasks <;> rfl

/-- Looking up a key other than the one just removed is unchanged. -/
lemma taskLookup_taskRemove_ne {tasks : List (Nat × Bool)} {i j : Nat}
    (h : j ≠ i) : taskLookup (taskRemove tasks i) j = taskLookup tasks j := by
  unfold taskLookup taskRemove
  have hfil : List.find? (fun t => t.1 == j) (tasks.filter (fun t => t.1 != i))
      = List.find? (fun t => t.1 == j) tasks := by
    induction tasks with
    | nil => rfl
    | cons a t ih =>
        by_cases ha : a.1 = i
        · have hfa : (a.1 != i) = false := by simp [ha]
          have haj : (a.1 == j) = false := by
            rw [ha]
            exact beq_eq_false_iff_ne.mpr (fun hc => h hc.symm)
          simp only [List.filter_cons, hfa, if_neg Bool.false_ne_true]
          rw [List.find?_cons, haj, ih]
        · have hfa : (a.1 != i) = true := by simp [ha]
          simp only [List.filter_cons, hfa, eq_self_iff_true, if_true]
          rw [List.find?_cons, List.find?_cons]
          cases haj : (a.1 == j) with
          | true => rfl
          | false => exact ih
  rw [hfil]

/-- The cadence-and-single-flight launch condition of
`_check_and_sync_integration`: a task launches iff the integration is
due (never synced counting as infinitely overdue) and no unfinished
task is recorded for its id. -/
lemma check_launched_iff (tasks : List (Nat × Bool)) (integ : TenantIntegration)
    (now : Nat) :
    (_check_and_sync_integration tasks integ now).launched = true ↔
      ((integ.last_synced_at = none ∨ ∃ ts, integ.last_synced_at = some ts ∧
          now - ts ≥ sync_intervals integ.integration_type) ∧
        taskLookup tasks integ.id ≠ some false) := by
  unfold _check_and_sync_integration
  cases hls : integ.last_synced_at with
  | none =>
      cases hlk : taskLookup tasks integ.id with
      | none => simp [hlk]
      | some b => cases b <;> simp [hlk]
  | some ts =>
      by_cases hdue : now - ts ≥ sync_intervals integ.integration_type
      · cases hlk : taskLookup tasks integ.id with
        | none => simp [hdue, hlk]
        | some b => cases b <;> simp [hdue, hlk]
      · simp [hdue]

/-- The tasks map after a check differs from the input only at the
checked integration's key. -/
lemma check_tasks_lookup_ne (tasks : List (Nat × Bool)) (integ : TenantIntegration)
    (now : Nat) {j : Nat} (h : j ≠ integ.id) :
    taskLookup (_check_and_sync_integration tasks integ now).tasks j
      = taskLookup tasks j := by
  unfold _check_and_sync_integration
  cases integ.last_synced_at with
  | none =>
      cases taskLookup tasks integ.id with
      | none => simp [taskLookup_taskSet_ne h]
      | some b =>
          cases b
          · simp
          · simp [taskLookup_taskSet_ne h, taskLookup_taskRemove_ne h]
  | some ts =>
      by_cases hdue : (decide (now - ts ≥ sync_intervals integ.integration_type)) = true
      · rw [if_pos hdue]
        cases taskLookup tasks integ.id with
        | none => simp [taskLookup_taskSet_ne h]
        | some b =>
            cases b
            · simp
            · simp [taskLookup_taskSet_ne h, taskLookup_taskRemove_ne h]
      · rw [if_neg hdue]

/-- Whether a check launches depends on the task map only through the
looked-up key. -/
lemma check_launched_congr (t1 t2 : List (Nat × Bool)) (integ : TenantIntegration)
    (now : Nat) (h : taskLookup t1 integ.id = taskLookup t2 integ.id) :
    (_check_and_sync_integration t1 integ now).launched
      = (_check_and_sync_integration t2 integ now).launched := by
  unfold _check_and_sync_integration
  rw [h]
  cases integ.last_synced_at with
  | none => cases taskLookup t2 integ.id with
    | none => rfl
    | some b => cases b <;> rfl
  | some ts =>
      by_cases hdue : (decide (now - ts ≥ sync_intervals integ.integration_type)) = true
      · rw [if_pos hdue, if_pos hdue]
        cases taskLookup t2 integ.id with
        | none => rfl
        | some b => cases b <;> rfl
      · rw [if_neg hdue, if_neg hdue]

/-- Characterization of one tick's launched ids: an id is launched iff
it was already accumulated or some listed integration carries it and its
check (against the initial task map) launches, provided ids are unique. -/
lemma tick_aux (now : Nat) (l : List TenantIntegration) :
    ∀ (acc : TickResult) (x : Nat), (l.map (fun i => i.id)).Nodup →
      (x ∈ (l.foldl (tickStep now) acc).launchedIds ↔
        x ∈ acc.launchedIds ∨ ∃ i ∈ l, i.id = x ∧
          (_check_and_sync_integration acc.tasks i now).launched = true) := by
  induction l with
  | nil =>
      intro acc x _
      simp
  | cons hd tl ih =>
      intro acc x hnd
      rw [List.map_cons] at hnd
      obtain ⟨hhd, hnd'⟩ := List.nodup_cons.mp hnd
      rw [List.foldl_cons, ih (tickStep now acc hd) x hnd']
      have hne : ∀ i ∈ tl, i.id ≠ hd.id := by
        intro i hi hcontra
        exact hhd (hcontra ▸ List.mem_map_of_mem (fun i => i.id) hi)
      have hB : ∀ i ∈ tl,
          (_check_and_sync_integration (tickStep now acc hd).tasks i now).launched
            = (_check_and_sync_integration acc.tasks i now).launched := by
        intro i hi
        refine check_launched_congr _ _ i now ?_
        show taskLookup (_check_and_sync_integration acc.tasks hd now).tasks i.id
          = taskLookup acc.tasks i.id
        exact check_tasks_lookup_ne acc.tasks hd now (hne i hi)
      constructor
      · rintro (hx | ⟨i, hi, hix, hl⟩)
        · by_cases hl0 : (_check_and_sync_integration acc.tasks hd now).launched = true
          · simp only [tickStep, hl0, if_true] at hx
            rcases List.mem_append.mp hx with hx1 | hx2
            · exact Or.inl hx1
            · right
              refine ⟨hd, List.mem_cons_self _ _, ?_, hl0⟩
              exact (by simpa using hx2 : x = hd.id).symm
          · simp only [tickStep, hl0, if_false] at hx
            have hx' : x ∈ acc.launchedIds := by
              rcases Bool.eq_false_or_eq_true
                (_check_and_sync_integration acc.tasks hd now).launched with ht | hf
              · exact absurd ht hl0
              · simpa [hf] using hx
            exact Or.inl hx'
        · right
          exact ⟨i, List.mem_cons_of_mem _ hi, hix, (hB i hi) ▸ hl⟩
      · rintro (hx | ⟨i, hi, hix, hl⟩)
        · left
          by_cases hl0 : (_check_and_sync_integration acc.tasks hd now).launched = true
          · simp only [tickStep, hl0, if_true]
            exact List.mem_append.mpr (Or.inl hx)
          · rcases Bool.eq_false_or_eq_true
              (_check_and_sync_integration acc.tasks hd now).launched with ht | hf
            · exact absurd ht hl0
            · simpa [tickStep, hf] using hx
        · rcases List.mem_cons.mp hi with rfl | hitl
          · left
            simp only [tickStep, hl, if_true]
            exact List.mem_append.mpr (Or.inr (by simpa using hix.symm))
          · right
            exact ⟨i, hitl, hix, (hB i hitl).symm ▸ hl⟩

/-! ## Claim C1 — single flight: scheduled path vs manual trigger -/

/-- An empty credential bundle for integrations whose token handling is
not at issue. -/
def hubConfig0 : HubConfig :=
  { access_token := none, refresh_token := none, token_created_at := none,
    expires_in := none }

/-- An active HubSpot integration that has synced at time 0. -/
def c1Integ : TenantIntegration :=
  { id := 1, tenant_id := 1, integration_type := "hubspot", is_active := true,
    last_synced_at := some 0, last_sync_status := none,
    sync_error_message := none, config := hubConfig0 }

/-- C1 (counterexample): with an unfinished sync task recorded for
integration 1 in the in-flight map, a manual trigger for the same
integration still runs a sync — it is not rejected as a no-op. -/
theorem C1_counterexample :
    taskLookup [(1, false)] c1Integ.id = some false ∧
    trigger_manual_sync [(1, false)] [c1Integ] 1 "hubspot" "incremental"
      = ManualSyncResult.ran 1 "incremental" := by
  decide

/-- C1 (amended): the scheduled path launches a sync task iff the
integration is due and no unfinished task is recorded for its id; the
manual trigger, however, ignores the in-flight task map entirely (its
outcome is the same for every task map), so it runs concurrently instead
of being rejected. -/
theorem C1_amended :
    (∀ (tasks : List (Nat × Bool)) (integ : TenantIntegration) (now : Nat),
      (_check_and_sync_integration tasks integ now).launched = true ↔
        ((integ.last_synced_at = none ∨ ∃ ts, integ.last_synced_at = some ts ∧
            now - ts ≥ sync_intervals integ.integration_type) ∧
          taskLookup tasks integ.id ≠ some false)) ∧
    (∀ (t1 t2 : List (Nat × Bool)) (integs : List TenantIntegration)
        (tenant : Nat) (itype syncType : String),
      trigger_manual_sync t1 integs tenant itype syncType
        = trigger_manual_sync t2 integs tenant itype syncType) :=
  ⟨check_launched_iff, fun _ _ _ _ _ _ => rfl⟩

/-! ## Claim C3 — which integrations a tick considers -/

/-- An active HubSpot integration that has never synced. -/
def c3Integ : TenantIntegration :=
  { id := 5, tenant_id := 1, integration_type := "hubspot", is_active := true,
    last_synced_at := none, last_sync_status := none,
    sync_error_message := none, config := hubConfig0 }

/-- C3 (counterexample): an active integration that has never synced is
excluded by the tick's `last_synced_at IS NOT NULL` filter, so no sync
task is launched for it on the first tick — even though the
per-integration check, had it been reached, would treat its elapsed time
as infinite and launch. -/
theorem C3_counterexample :
    c3Integ.is_active = true ∧ c3Integ.last_synced_at = none ∧
    (_check_and_sync_integration [] c3Integ 1000).launched = true ∧
    (_sync_all_tenants [c3Integ] [] 1000).launchedIds = [] := by
  decide

/-- C3 (amended): a tick launches a sync task exactly for those
integrations that are active, have a set `last_synced_at` with elapsed
time at least the per-provider cadence, and have no unfinished task
recorded; active integrations with `last_synced_at` unset are never
considered. -/
theorem C3_amended (integs : List TenantIntegration) (tasks : List (Nat × Bool))
    (now : Nat) (hnd : (integs.map (fun i => i.id)).Nodup) :
    ∀ i ∈ integs, (i.id ∈ (_sync_all_tenants integs tasks now).launchedIds ↔
      (i.is_active = true ∧ ∃ ts, i.last_synced_at = some ts ∧
        now - ts ≥ sync_intervals i.integration_type ∧
        taskLookup tasks i.id ≠ some false)) := by
  intro i hi
  have hsub : ((integs.filter
      (fun i => i.is_active && i.last_synced_at.isSome)).map (fun i => i.id)).Nodup :=
    hnd.sublist ((List.filter_sublist integs).map (fun i => i.id))
  show i.id ∈ ((integs.filter (fun i => i.is_active && i.last_synced_at.isSome)).foldl
      (tickStep now) { launchedIds := [], tasks := tasks }).launchedIds ↔ _
  rw [tick_aux now _ { launchedIds := [], tasks := tasks } i.id hsub]
  simp only [List.not_mem_nil, false_or]
  constructor
  · rintro ⟨j, hjsel, hjid, hjl⟩
    have hj2 : j ∈ integs := (List.mem_filter.mp hjsel).1
    have hji : j = i := List.inj_on_of_nodup_map hnd hj2 hi hjid
    subst hji
    have hq := (List.mem_filter.mp hjsel).2
    rw [Bool.and_eq_true] at hq
    have hli := (check_launched_iff tasks j now).mp hjl
    rcases hli with ⟨hdue, hnlk⟩
    rcases hdue with hnone | ⟨ts, hts, hge⟩
    · rw [hnone] at hq
      simp at hq
    · exact ⟨hq.1, ts, hts, hge, hnlk⟩
  · rintro ⟨hact, ts, hts, hge, hnlk⟩
    refine ⟨i, ?_, rfl, ?_⟩
    · exact List.mem_filter.mpr ⟨hi, by simp [hact, hts]⟩
    · exact (check_launched_iff tasks i now).mpr ⟨Or.inr ⟨ts, hts, hge⟩, hnlk⟩

/-- C3 (witness): the amended tick characterization evaluated for a
single synced integration. -/
theorem C3_witness :
    (([c1Integ].map (fun i => i.id)).Nodup) ∧ (c1Integ ∈ [c1Integ]) ∧
    (c1Integ.id ∈ (_sync_all_tenants [c1Integ] [] 1000).launchedIds ↔
      (c1Integ.is_active = true ∧ ∃ ts, c1Integ.last_synced_at = some ts ∧
        1000 - ts ≥ sync_intervals c1Integ.integration_type ∧
        taskLookup [] c1Integ.id ≠ some false)) :=
  ⟨by decide, by decide, C3_amended [c1Integ] [] 1000 (by decide) c1Integ (by decide)⟩

/-- Joining a nonempty first word yields a nonempty result. -/
lemma joinWith_cons_ne_nil {sep w : List Char} {ws : List (List Char)}
    (hw : w ≠ []) : joinWith sep (w :: ws) ≠ [] := by
  cases ws with
  | nil => simpa [joinWith] using hw
  | cons w2 ws2 =>
      simp only [joinWith]
      intro hc
      exact hw (List.append_eq_nil.mp (List.append_eq_nil.mp hc).1).1

/-! ## Claim C5 — fallback title and summary -/

/-- Modelled from the spec: the "earliest" member of a group, by
`created_at` with the id as secondary tie-break key.  (The source query
applies no ordering; this definition exists to compare the claim's
choice with the code's.) -/
def earliestReport (rs : List RawReport) : Option RawReport :=
  rs.foldl (fun acc r => match acc with
    | none => some r
    | some m => if r.created_at < m.created_at ∨
        (r.created_at = m.created_at ∧ r.id < m.id) then some r else some m) none

/-- A report created at time 1; its title differs from its peer's. -/
def c5rep1 : RawReport :=
  { id := 1, tenant_id := 1, source := "hubspot", external_id := some "A",
    title := "earliest title", body := none, url := none,
    signature := some "sigsigsigsigsigsigsigsig", created_at := 1 }

/-- A report created later, at time 2, under the same signature. -/
def c5rep2 : RawReport :=
  { id := 2, tenant_id := 1, source := "hubspot", external_id := some "B",
    title := "later title", body := none, url := none,
    signature := some "sigsigsigsigsigsigsigsig", created_at := 2 }

/-- C5 (counterexample): the tenant's reports load as [c5rep2, c5rep1]
(the recluster query has no ORDER BY, so this load order is admissible);
the resulting group's fallback title is the first loaded report's title,
not the title of the earliest report by (created_at, id). -/
theorem C5_counterexample :
    ((recluster _summarize_group_fallback 1
        { reports := [c5rep2, c5rep1], groups := [], links := [],
          nextReportId := 3, nextGroupId := 1 }).state.groups.map
      (fun g => g.title)) = ["later title"] ∧
    (earliestReport [c5rep2, c5rep1]).map (fun r => r.title)
      = some "earliest title" ∧
    ("later title" : String) ≠ "earliest title" := by
  decide

/-- C5 (amended): under the deterministic fallback (Summarizer absent or
failing), the group title equals the title of the first member report in
load order (not sorted by created_at), and the summary is non-empty
whenever some member has a non-empty body. -/
theorem C5_amended (reports : List RawReport) (r0 : RawReport)
    (h0 : reports.head? = some r0) (ht : r0.title ≠ "") :
    (_summarize_group_fallback reports).1 = r0.title ∧
    (∀ r ∈ reports, ∀ b : String, r.body = some b → b ≠ "" →
      ∃ s, (_summarize_group_fallback reports).2 = some s ∧ s ≠ "") := by
  constructor
  · simp only [_summarize_group_fallback, h0]
    rw [if_neg ht]
  · intro r hr b hb hbne
    have hmem : b ∈ reports.filterMap (fun r => match r.body with
        | some b => if b = "" then none else some b
        | none => none) := by
      refine List.mem_filterMap.mpr ⟨r, hr, ?_⟩
      simp [hb, hbne]
    have hall : ∀ x ∈ reports.filterMap (fun r => match r.body with
        | some b => if b = "" then none else some b
        | none => none), x ≠ "" := by
      intro x hx
      obtain ⟨a, _, hax⟩ := List.mem_filterMap.mp hx
      cases hab : a.body with
      | none => rw [hab] at hax; simp at hax
      | some bb =>
          rw [hab] at hax
          by_cases hbb : bb = ""
          · simp [hbb] at hax
          · simp [hbb] at hax
            exact hax ▸ hbb
    cases hdl : reports.filterMap (fun r => match r.body with
        | some b => if b = "" then none else some b
        | none => none) with
    | nil => rw [hdl] at hmem; simp at hmem
    | cons d ds =>
        have hd0 : d ≠ "" := hall d (by rw [hdl]; exact List.mem_cons_self _ _)
        refine ⟨joinStrings " | " ((d :: ds).take 3), ?_, ?_⟩
        · simp only [_summarize_group_fallback, hdl]
          rfl
        · have hdata : d.data ≠ [] := by
            intro hc
            apply hd0
            cases d with
            | mk l =>
                change l = [] at hc
                subst hc
                rfl
          have hne : joinWith (" | ".data)
              (d.data :: List.map (fun s => s.data) (ds.take 2)) ≠ [] :=
            joinWith_cons_ne_nil hdata
          intro hc
          have hc' := congrArg String.data hc
          have h3 : (d :: ds).take 3 = d :: ds.take 2 := rfl
          rw [h3] at hc'
          exact hne (by simpa [joinStrings] using hc')

/-- C5 (witness): the amended fallback property evaluated on a
two-report group whose first loaded member has a body. -/
theorem C5_witness :
    (([{ c5rep1 with body := some "some body" }, c5rep2] :
        List RawReport).head? = some { c5rep1 with body := some "some body" }) ∧
    (({ c5rep1 with body := some "some body" } : RawReport).title ≠ "") ∧
    ((_summarize_group_fallback [{ c5rep1 with body := some "some body" },
        c5rep2]).1 = ({ c5rep1 with body := some "some body" } : RawReport).title ∧
     (∀ r ∈ ([{ c5rep1 with body := some "some body" }, c5rep2] : List RawReport),
        ∀ b : String, r.body = some b → b ≠ "" →
        ∃ s, (_summarize_group_fallback [{ c5rep1 with body := some "some body" },
          c5rep2]).2 = some s ∧ s ≠ "")) :=
  ⟨by decide, by decide,
   C5_amended [{ c5rep1 with body := some "some body" }, c5rep2]
     { c5rep1 with body := some "some body" } (by decide) (by decide)⟩

/-! ## Claim C6 — the incremental sync ignores `since` -/

/-- Without a limit, `list_tickets` returns every ticket of every page. -/
lemma list_tickets_no_limit (pages : List (List HubTicket)) :
    list_tickets pages none = pages.flatten := by
  unfold list_tickets
  suffices h : ∀ total, listTicketsPages pages none total = pages.flatten by
    exact h 0
  induction pages with
  | nil =>
      intro total
      rfl
  | cons p ps ih =>
      intro total
      simp [listTicketsPages, ih]

/-- A ticket last modified at time 50, before the last sync. -/
def c6Ticket : HubTicket :=
  { id := "T1", subject := some "Stale ticket", content := some "body text",
    hs_lastmodifieddate := 50 }

/-- An active integration whose last sync happened at time 100. -/
def c6Integ : TenantIntegration :=
  { id := 2, tenant_id := 1, integration_type := "hubspot", is_active := true,
    last_synced_at := some 100, last_sync_status := some "success",
    sync_error_message := none, config := hubConfig0 }

/-- C6 (counterexample): an incremental sync resolves
`since = last_synced_at = 100`, yet a ticket last modified at 50 —
unchanged since the previous sync — is still fetched and upserted into
the raw report store. -/
theorem C6_counterexample :
    (_sync_with_tracking c6Integ [[c6Ticket]] "incremental" none 200
        emptyClusterDb).since = some 100 ∧
    c6Ticket.hs_lastmodifieddate < 100 ∧
    (_sync_with_tracking c6Integ [[c6Ticket]] "incremental" none 200
        emptyClusterDb).processedIds = ["T1"] ∧
    ((_sync_with_tracking c6Integ [[c6Ticket]] "incremental" none 200
        emptyClusterDb).db.reports.map (fun r => r.external_id)) = [some "T1"] := by
  decide

/-- C6 (amended): the sync computes `since` but never passes it to the
fetch: every ticket the provider returns is processed, and the processed
set does not depend on the integration's `last_synced_at` at all. -/
theorem C6_amended (integ integ2 : TenantIntegration)
    (pages : List (List HubTicket)) (syncType : String) (sinceArg : Option Nat)
    (now : Nat) (db : ClusterDb) (t : HubTicket) (ht : t ∈ pages.flatten) :
    t.id ∈ (_sync_with_tracking integ pages syncType sinceArg now db).processedIds ∧
    (_sync_with_tracking integ pages syncType sinceArg now db).processedIds
      = (_sync_with_tracking integ2 pages syncType sinceArg now db).processedIds := by
  constructor
  · show t.id ∈ (list_tickets pages none).map (fun t => t.id)
    rw [list_tickets_no_limit]
    exact List.mem_map_of_mem _ ht
  · rfl

/-- C6 (witness): the amended statement evaluated on the stale ticket. -/
theorem C6_witness :
    (c6Ticket ∈ ([[c6Ticket]] : List (List HubTicket)).flatten) ∧
    (c6Ticket.id ∈ (_sync_with_tracking c6Integ [[c6Ticket]] "incremental" none 200
        emptyClusterDb).processedIds ∧
     (_sync_with_tracking c6Integ [[c6Ticket]] "incremental" none 200
        emptyClusterDb).processedIds
       = (_sync_with_tracking c1Integ [[c6Ticket]] "incremental" none 200
        emptyClusterDb).processedIds) :=
  ⟨by decide,
   C6_amended c6Integ c1Integ [[c6Ticket]] "incremental" none 200 emptyClusterDb
     c6Ticket (by decide)⟩

/-! ## Claim C7 — token refresh on expiry; failure marks the integration -/

/-- A credential bundle that expired long before `now = 2000`
(created at 0 with a 1000-second lifetime), with a refresh token. -/
def c7cfg : HubConfig :=
  { access_token := some "oldtok", refresh_token := some "rtok",
    token_created_at := some 0, expires_in := some 1000 }

/-- An active integration holding the expired bundle `c7cfg`. -/
def c7Integ : TenantIntegration :=
  { id := 3, tenant_id := 1, integration_type := "hubspot", is_active := true,
    last_synced_at := none, last_sync_status := some "success",
    sync_error_message := none, config := c7cfg }

/-- The token endpoint's response for a successful refresh. -/
def c7resp : RefreshResp :=
  { access_token := some "newtok", refresh_token := some "rtok2",
    expires_in := some 3600 }

/-- C7 (counterexample): on an expired bundle whose refresh token is
invalid (every refresh fails) and whose live probe fails,
`_get_valid_token` does raise the auth error and mark the integration
failed — but only after invoking `_refresh_access_token` twice (once on
the expiry check and once more after the probe), so the refresh failure
is retried synchronously, contrary to the claim. -/
theorem C7_counterexample :
    (_get_valid_token c7Integ (fun _ => false) (fun _ => none) true 2000).refreshCalls
      = 2 ∧
    (_get_valid_token c7Integ (fun _ => false) (fun _ => none) true 2000).outcome
      = TokenOutcome.err "Invalid or expired HubSpot access token" ∧
    (_get_valid_token c7Integ (fun _ => false) (fun _ => none) true
        2000).integration.last_sync_status = some "failed" := by
  decide

/-- C7 (amended): on an expired bundle with a working refresh token,
`_get_valid_token` returns the refreshed token and persists a bundle
created `now` whose expiry `now + expires_in` lies in the future; on a
bundle whose refresh always fails and whose live probe fails, it raises
the auth error and marks the integration `last_sync_status = "failed"`
with an error message — after attempting the refresh once or twice
(the failure is retried synchronously once when the bundle was also
expired, unlike the claim's wording). -/
theorem C7_amended :
    (∀ (integ : TenantIntegration) (validate : String → Bool)
        (oracle : Nat → Option RefreshResp) (now createdAt ei ei2 : Nat)
        (at0 rt tok : String) (resp : RefreshResp),
      integ.is_active = true →
      integ.config = { access_token := some at0, refresh_token := some rt,
                       token_created_at := some createdAt, expires_in := some ei } →
      ei ≠ 0 →
      now + 300 ≥ createdAt + ei →
      oracle 0 = some resp →
      resp.access_token = some tok →
      resp.expires_in = some ei2 →
      0 < ei2 →
      (_get_valid_token integ validate oracle true now).outcome
          = TokenOutcome.ok tok ∧
      (_get_valid_token integ validate oracle true
          now).integration.config.token_created_at = some now ∧
      (_get_valid_token integ validate oracle true
          now).integration.config.expires_in = some ei2 ∧
      now < now + ei2) ∧
    (∀ (integ : TenantIntegration) (oracle : Nat → Option RefreshResp)
        (now : Nat) (at0 rt : String),
      integ.is_active = true →
      integ.config.access_token = some at0 →
      integ.config.refresh_token = some rt →
      (∀ k, oracle k = none) →
      (_get_valid_token integ (fun _ => false) oracle true now).outcome
          = TokenOutcome.err "Invalid or expired HubSpot access token" ∧
      (_get_valid_token integ (fun _ => false) oracle true
          now).integration.last_sync_status = some "failed" ∧
      (_get_valid_token integ (fun _ => false) oracle true
          now).integration.sync_error_message
          = some "Invalid or expired access token" ∧
      1 ≤ (_get_valid_token integ (fun _ => false) oracle true now).refreshCalls ∧
      (_get_valid_token integ (fun _ => false) oracle true now).refreshCalls ≤ 2) := by
  constructor
  · intro integ validate oracle now createdAt ei ei2 at0 rt tok resp
      hact hcfg hei hexp horacle htok hei2 hpos
    cases integ with
    | mk iid itid ityp iact ilsa ilss isem icfg =>
        simp only at hact hcfg
        subst hact
        subst hcfg
        have hd1 : (ei != 0) = true := by simpa using hei
        have hd2 : decide (now + 300 ≥ createdAt + ei) = true := decide_eq_true hexp
        have hexps : tokenExpiredSoon
            { access_token := some at0, refresh_token := some rt,
              token_created_at := some createdAt, expires_in := some ei } now
            = true := by
          simp [tokenExpiredSoon, hd1, hd2]
        refine ⟨?_, ?_, ?_, Nat.lt_add_of_pos_right hpos⟩
        all_goals
          simp [_get_valid_token, _refresh_access_token, hexps, horacle, htok, hei2]
  · intro integ oracle now at0 rt hact hat hrt horacle
    have hfail : ∀ k cfg, _refresh_access_token true (oracle k) rt cfg now = none := by
      intro k cfg
      rw [horacle k]
      rfl
    cases hexp : tokenExpiredSoon integ.config now with
    | true =>
        have hres : _get_valid_token integ (fun _ => false) oracle true now
            = { outcome := TokenOutcome.err "Invalid or expired HubSpot access token",
                integration := { integ with
                  last_sync_status := some "failed",
                  sync_error_message := some "Invalid or expired access token" },
                refreshCalls := 2 } := by
          simp only [_get_valid_token, hact, Bool.not_true, Bool.false_eq_true,
            if_false, hat, hexp, hrt, if_true, hfail, Option.isSome_some,
            Bool.and_self]
        rw [hres]
        refine ⟨rfl, rfl, rfl, ?_, ?_⟩
        · show (1 : Nat) ≤ 2
          decide
        · show (2 : Nat) ≤ 2
          decide
    | false =>
        have hres : _get_valid_token integ (fun _ => false) oracle true now
            = { outcome := TokenOutcome.err "Invalid or expired HubSpot access token",
                integration := { integ with
                  last_sync_status := some "failed",
                  sync_error_message := some "Invalid or expired access token" },
                refreshCalls := 1 } := by
          simp only [_get_valid_token, hact, Bool.not_true, Bool.false_eq_true,
            if_false, hat, hexp, hrt, hfail, Bool.false_and]
        rw [hres]
        refine ⟨rfl, rfl, rfl, ?_, ?_⟩
        · show (1 : Nat) ≤ 1
          decide
        · show (1 : Nat) ≤ 2
          decide

/-- C7 (witness): both amended scenarios evaluated on the expired bundle
`c7cfg`: a working refresh token yields token "newtok" with a future
expiry; a dead refresh token yields the auth error with the integration
marked failed after two refresh attempts. -/
theorem C7_witness :
    ((_get_valid_token c7Integ (fun _ => false) (fun _ => some c7resp) true
        2000).outcome = TokenOutcome.ok "newtok" ∧
     (_get_valid_token c7Integ (fun _ => false) (fun _ => some c7resp) true
        2000).integration.config.token_created_at = some 2000 ∧
     (_get_valid_token c7Integ (fun _ => false) (fun _ => some c7resp) true
        2000).integration.config.expires_in = some 3600 ∧
     2000 < 2000 + 3600) ∧
    ((_get_valid_token c7Integ (fun _ => false) (fun _ => none) true 2000).outcome
        = TokenOutcome.err "Invalid or expired HubSpot access token" ∧
     (_get_valid_token c7Integ (fun _ => false) (fun _ => none) true
        2000).integration.last_sync_status = some "failed" ∧
     (_get_valid_token c7Integ (fun _ => false) (fun _ => none) true
        2000).integration.sync_error_message
        = some "Invalid or expired access token" ∧
     1 ≤ (_get_valid_token c7Integ (fun _ => false) (fun _ => none) true
        2000).refreshCalls ∧
     (_get_valid_token c7Integ (fun _ => false) (fun _ => none) true
        2000).refreshCalls ≤ 2) :=
  ⟨C7_amended.1 c7Integ (fun _ => false) (fun _ => some c7resp) 2000 0 1000 3600
      "oldtok" "rtok" "newtok" c7resp (by decide) (by decide) (by decide)
      (by decide) rfl rfl rfl (by decide),
   C7_amended.2 c7Integ (fun _ => none) 2000 "oldtok" "rtok" (by decide)
      (by decide) (by decide) (fun _ => rfl)⟩

/-! ## Claim C2 — orphan cleanup after signatures change -/

/-- Surviving the orphan filter means owning a link row (for the
reclustered tenant). -/
lemma orphanFilter_mem {tenant : Nat} {links : List AIIssueGroupReport}
    {groups : List AIIssueGroup} {g : AIIssueGroup}
    (hg : g ∈ orphanFilter tenant links groups) (ht : g.tenant_id = tenant) :
    ∃ l ∈ links, l.group_id = g.id := by
  rcases List.mem_filter.mp hg with ⟨_, hcond⟩
  rcases Bool.or_eq_true_iff.mp hcond with h1 | h2
  · exfalso
    rw [ht] at h1
    simp at h1
  · obtain ⟨l, hl, hlg⟩ := List.any_eq_true.mp h2
    exact ⟨l, hl, by simpa using hlg⟩

/-- C2 (counterexample): the only report is ingested with title "foo"
(signature S1) and clustered into group 1; it is then re-ingested under
the same external id with title "bar", changing its stored signature to
S2 ≠ S1.  The next recluster creates group 2 for S2 but does not delete
group 1: group 1's stale link row (written when the report still carried
S1) is never cleared, so group 1 is not orphaned in the code's sense and
survives, and the report ends up linked to both groups. -/
theorem C2_counterexample :
    _simple_signature "foo" none ≠ _simple_signature "bar" none ∧
    ((ingest_raw_report 7 "hubspot" (some "A") "bar" none none 20
        (recluster _summarize_group_fallback 7
          (ingest_raw_report 7 "hubspot" (some "A") "foo" none none 10
            emptyClusterDb)).state).reports.map (fun r => r.signature))
      = [some (_simple_signature "bar" none)] ∧
    ((recluster _summarize_group_fallback 7
        (ingest_raw_report 7 "hubspot" (some "A") "bar" none none 20
          (recluster _summarize_group_fallback 7
            (ingest_raw_report 7 "hubspot" (some "A") "foo" none none 10
              emptyClusterDb)).state)).state.groups.map
      (fun g => (g.id, g.summary)))
      = [(1, some (sigMarker (_simple_signature "foo" none))),
         (2, some (sigMarker (_simple_signature "bar" none)))] ∧
    ((recluster _summarize_group_fallback 7
        (ingest_raw_report 7 "hubspot" (some "A") "bar" none none 20
          (recluster _summarize_group_fallback 7
            (ingest_raw_report 7 "hubspot" (some "A") "foo" none none 10
              emptyClusterDb)).state)).state.links.map
      (fun l => (l.group_id, l.report_id))) = [(1, 1), (2, 1)] := by
  decide

/-- C2 (amended): after `recluster`, every surviving group of the tenant
owns at least one link row (groups with no link row are deleted); but
link rows are replaced only for groups of signatures present among the
tenant's current reports, so a group all of whose member reports were
re-ingested under a new signature keeps its stale link rows and is not
deleted. -/
theorem C2_amended (summarize : List RawReport → String × Option String)
    (tenant : Nat) (db : ClusterDb) :
    ∀ g ∈ (recluster summarize tenant db).state.groups, g.tenant_id = tenant →
      ∃ l ∈ (recluster summarize tenant db).state.links, l.group_id = g.id := by
  intro g hg htg
  exact orphanFilter_mem hg htg

/-- The single group created when reclustering one report of tenant 1. -/
def c2wRep : RawReport :=
  { id := 1, tenant_id := 1, source := "hubspot", external_id := some "W",
    title := "w-title", body := none, url := none,
    signature := some "sigsigsigsigsigsigsigsig", created_at := 1 }

/-- The group that recluster creates for `c2wRep`'s signature. -/
def c2wGroup : AIIssueGroup :=
  { id := 1, tenant_id := 1, title := "w-title",
    summary := some "sig:sigsigsigsigsigsigsigsig", status := some "open",
    frequency := 1, sources := [("hubspot", 1)] }

/-- C2 (witness): the amended no-zero-link-group property evaluated on a
one-report tenant. -/
theorem C2_witness :
    (c2wGroup ∈ (recluster _summarize_group_fallback 1
        { reports := [c2wRep], groups := [], links := [],
          nextReportId := 2, nextGroupId := 1 }).state.groups) ∧
    (c2wGroup.tenant_id = 1) ∧
    (∃ l ∈ (recluster _summarize_group_fallback 1
        { reports := [c2wRep], groups := [], links := [],
          nextReportId := 2, nextGroupId := 1 }).state.links,
      l.group_id = c2wGroup.id) :=
  ⟨by decide, by decide,
   C2_amended _summarize_group_fallback 1
     { reports := [c2wRep], groups := [], links := [],
       nextReportId := 2, nextGroupId := 1 } c2wGroup (by decide) (by decide)⟩

/-! ## Claim C4 — reclustering twice is idempotent

Auxiliary lemmas about `find?`, `updateFirst`, the signature markers and
the grouping, leading to the idempotence of `recluster` (under the
database invariants: unique group ids below the id counter, link rows
referencing existing groups, and the fixed 24-character signatures that
`_simple_signature` produces). -/

/-- Finding in an appended list when the left part already finds. -/
lemma find?_append_left {p : α → Bool} {l l' : List α} {g : α}
    (h : l.find? p = some g) : (l ++ l').find? p = some g := by
  rw [List.find?_append, h]
  rfl

/-- Finding in an appended list when the left part finds nothing. -/
lemma find?_append_right {p : α → Bool} {l l' : List α}
    (h : l.find? p = none) : (l ++ l').find? p = l'.find? p := by
  rw [List.find?_append, h]
  rfl

/-- Replacing the first `p`-element by a `p`-element is found first. -/
lemma find?_updateFirst_self {p : α → Bool} {l : List α} {g g' : α}
    (h : l.find? p = some g) (hg' : p g' = true) :
    (updateFirst p (fun _ => g') l).find? p = some g' := by
  induction l with
  | nil => simp at h
  | cons a t ih =>
      by_cases ha : p a = true
      · simp [updateFirst, ha, List.find?_cons, hg']
      · have ha' : p a = false := by
          cases hpa : p a
          · rfl
          · exact absurd hpa ha
        rw [List.find?_cons, ha'] at h
        simp only [updateFirst, ha', Bool.false_eq_true, if_false]
        rw [List.find?_cons, ha']
        exact ih h

/-- Replacing the first `p`-element does not disturb a `q`-search when
no `p`-element nor the replacement satisfies `q`. -/
lemma find?_updateFirst_other {p q : α → Bool} {l : List α} {g' : α}
    (hpq : ∀ x, p x = true → q x = false) (hg' : q g' = false) :
    (updateFirst p (fun _ => g') l).find? q = l.find? q := by
  induction l with
  | nil => rfl
  | cons a t ih =>
      cases hpa : p a with
      | true =>
          have hqa : q a = false := hpq a hpa
          simp only [updateFirst, hpa, eq_self_iff_true, if_true]
          rw [List.find?_cons, hg', List.find?_cons, hqa]
      | false =>
          simp only [updateFirst, hpa, Bool.false_eq_true, if_false]
          rw [List.find?_cons, List.find?_cons]
          cases hqa : q a with
          | true => rfl
          | false => exact ih

/-- Replacing the first `p`-element with itself changes nothing. -/
lemma updateFirst_self {p : α → Bool} {l : List α} {g : α}
    (h : l.find? p = some g) : updateFirst p (fun _ => g) l = l := by
  induction l with
  | nil => rfl
  | cons a t ih =>
      by_cases ha : p a = true
      · rw [List.find?_cons, ha] at h
        cases h
        simp [updateFirst, ha]
      · have ha' : p a = false := by
          cases hpa : p a
          · rfl
          · exact absurd hpa ha
        rw [List.find?_cons, ha'] at h
        simp [updateFirst, ha, ih h]

/-- The image of a list under `f` is unchanged by `updateFirst` when the
replacement has the same image as the found element. -/
lemma map_updateFirst_eq {p : α → Bool} {l : List α} {g g' : α} {fn : α → β}
    (h : l.find? p = some g) (hfg : fn g' = fn g) :
    (updateFirst p (fun _ => g') l).map fn = l.map fn := by
  induction l with
  | nil => rfl
  | cons a t ih =>
      by_cases ha : p a = true
      · rw [List.find?_cons, ha] at h
        cases h
        simp [updateFirst, ha, hfg]
      · have ha' : p a = false := by
          cases hpa : p a
          · rfl
          · exact absurd hpa ha
        rw [List.find?_cons, ha'] at h
        simp [updateFirst, ha, ih h]

/-- Members of an updated list are old members or the replacement. -/
lemma mem_updateFirst {p : α → Bool} {f : α → α} {l : List α} {x : α}
    (h : x ∈ updateFirst p f l) : x ∈ l ∨ ∃ y ∈ l, f y = x := by
  induction l with
  | nil => simp [updateFirst] at h
  | cons a t ih =>
      by_cases ha : p a = true
      · simp only [updateFirst, ha, if_true] at h
        rcases List.mem_cons.mp h with rfl | hx
        · exact Or.inr ⟨a, List.mem_cons_self _ _, rfl⟩
        · exact Or.inl (List.mem_cons_of_mem _ hx)
      · simp only [updateFirst, ha, if_false] at h
        rcases List.mem_cons.mp h with rfl | hx
        · exact Or.inl (List.mem_cons_self _ _)
        · rcases ih hx with h1 | ⟨y, hy, hyx⟩
          · exact Or.inl (List.mem_cons_of_mem _ h1)
          · exact Or.inr ⟨y, List.mem_cons_of_mem _ hy, hyx⟩

/-- A found element is a member satisfying the predicate. -/
lemma find?_mem_pred {p : α → Bool} {l : List α} {g : α}
    (h : l.find? p = some g) : g ∈ l ∧ p g = true :=
  ⟨List.mem_of_find?_eq_some h, List.find?_some h⟩

/-- Finding survives a filter that keeps the found element. -/
lemma find?_filter_keep {p keep : α → Bool} {l : List α} {g : α}
    (h : l.find? p = some g) (hk : keep g = true) :
    (l.filter keep).find? p = some g := by
  induction l with
  | nil => simp at h
  | cons a t ih =>
      by_cases ha : p a = true
      · rw [List.find?_cons, ha] at h
        cases h
        rw [List.filter_cons, if_pos hk, List.find?_cons, ha]
      · have ha' : p a = false := by
          cases hpa : p a
          · rfl
          · exact absurd hpa ha
        rw [List.find?_cons, ha'] at h
        rw [List.filter_cons]
        by_cases hka : keep a = true
        · rw [if_pos hka, List.find?_cons, ha']
          exact ih h
        · have hka' : keep a = false := by
            cases hkb : keep a
            · rfl
            · exact absurd hkb hka
          rw [hka']
          simp only [Bool.false_eq_true, if_false]
          exact ih h

/-- A marker match forces the group to belong to the tenant. -/
lemma matchesMarker_tenant {t : Nat} {σ : String} {g : AIIssueGroup}
    (h : matchesMarker t σ g = true) : g.tenant_id = t := by
  unfold matchesMarker at h
  rw [Bool.and_eq_true] at h
  simpa using h.1

/-- A group matches at most one signature of a given length: the
signature is pinned by the characters following "sig:". -/
lemma matchesMarker_unique {t t' : Nat} {σ σ' : String} {g : AIIssueGroup}
    (h : matchesMarker t σ g = true) (h' : matchesMarker t' σ' g = true)
    (hlen : σ.length = σ'.length) : σ = σ' := by
  unfold matchesMarker at h h'
  rw [Bool.and_eq_true] at h h'
  cases hs : g.summary with
  | none =>
      rw [hs] at h
      exact absurd h.2 (by simp)
  | some s =>
      rw [hs] at h h'
      have h1 : (sigMarker σ).data <+: s.data := by
        rw [← List.isPrefixOf_iff_prefix]
        exact h.2
      have h2 : (sigMarker σ').data <+: s.data := by
        rw [← List.isPrefixOf_iff_prefix]
        exact h'.2
      have hlen2 : (sigMarker σ).data.length = (sigMarker σ').data.length := by
        unfold sigMarker
        rw [String.data_append, String.data_append, List.length_append,
          List.length_append]
        exact congrArg (fun n => "sig:".data.length + n) hlen
      have heq : (sigMarker σ).data = (sigMarker σ').data := by
        rcases List.prefix_or_prefix_of_prefix h1 h2 with hp | hp
        · exact List.IsPrefix.eq_of_length hp hlen2
        · exact (List.IsPrefix.eq_of_length hp hlen2.symm).symm
      unfold sigMarker at heq
      rw [String.data_append, String.data_append] at heq
      have hd : σ.data = σ'.data := List.append_cancel_left heq
      cases σ with
      | mk l =>
          cases σ' with
          | mk l' =>
              cases hd
              rfl

/-- A freshly written summary matches its own marker. -/
lemma matchesMarker_summaryWithSig {t : Nat} {σ : String} {g : AIIssueGroup}
    (htg : g.tenant_id = t) (hsum : g.summary = some (summaryWithSig σ s)) :
    matchesMarker t σ g = true := by
  unfold matchesMarker
  rw [Bool.and_eq_true, hsum]
  refine ⟨by simp [htg], ?_⟩
  rw [List.isPrefixOf_iff_prefix]
  cases s with
  | none =>
      simp only [summaryWithSig]
      exact List.prefix_refl _
  | some str =>
      by_cases hstr : str = ""
      · simp only [summaryWithSig, if_pos hstr]
        exact List.prefix_refl _
      · simp only [summaryWithSig, if_neg hstr, String.data_append]
        rw [List.append_assoc]
        exact ⟨_, rfl⟩

/-- Inserting a report preserves nonempty member lists. -/
lemma insertGrouped_nonempty {acc : List (String × List RawReport)} {s : String}
    {r : RawReport} (hacc : ∀ e ∈ acc, e.2 ≠ []) :
    ∀ e ∈ insertGrouped acc s r, e.2 ≠ [] := by
  induction acc with
  | nil =>
      intro e he
      rcases List.mem_singleton.mp he with rfl
      simp
  | cons a t iha =>
      obtain ⟨k, v⟩ := a
      intro e he
      by_cases hk : k = s
      · simp only [insertGrouped, if_pos hk] at he
        rcases List.mem_cons.mp he with rfl | h2
        · intro hc
          have hc' : v = [] := by simp at hc
          exact hacc (k, v) (List.mem_cons_self _ _) hc' 
        · exact hacc e (List.mem_cons_of_mem _ h2)
      · simp only [insertGrouped, if_neg hk] at he
        rcases List.mem_cons.mp he with rfl | h2
        · exact hacc (k, v) (List.mem_cons_self _ _)
        · exact iha (fun x hx => hacc x (List.mem_cons_of_mem _ hx)) e h2

/-- Every group of signatures produced by `groupBySig` is nonempty. -/
lemma groupBySig_nonempty (rs : List RawReport) :
    ∀ e ∈ groupBySig rs, e.2 ≠ [] := by
  suffices h : ∀ acc, (∀ e ∈ acc, e.2 ≠ []) →
      ∀ e ∈ rs.foldl (fun acc r => match sigKey r with
        | none => acc
        | some s => insertGrouped acc s r) acc, e.2 ≠ [] by
    exact h [] (by simp)
  induction rs with
  | nil =>
      intro acc hacc
      simpa using hacc
  | cons r rest ih =>
      intro acc hacc
      rw [List.foldl_cons]
      cases hsk : sigKey r with
      | none => exact ih acc hacc
      | some s => exact ih _ (insertGrouped_nonempty hacc)

/-- Filtering for one group id after filtering another id away. -/
lemma filter_beq_of_filter_bne {links : List AIIssueGroupReport} {gid gid' : Nat}
    (h : gid ≠ gid') :
    (links.filter (fun l => l.group_id != gid')).filter
        (fun l => l.group_id == gid)
      = links.filter (fun l => l.group_id == gid) := by
  induction links with
  | nil => rfl
  | cons a t ih =>
      by_cases ha : a.group_id = gid
      · have h1 : (a.group_id != gid') = true := by simp [ha, h]
        have h2 : (a.group_id == gid) = true := by simp [ha]
        simp [List.filter_cons, h1, h2, ih]
      · have h2 : (a.group_id == gid) = false := by simp [ha]
        by_cases hb : a.group_id = gid'
        · have h1 : (a.group_id != gid') = false := by simp [hb]
          simp [List.filter_cons, h1, h2, ih]
        · have h1 : (a.group_id != gid') = true := by simp [hb]
          simp [List.filter_cons, h1, h2, ih]

/-- Fresh links for a different group id are invisible to a filter. -/
lemma filter_beq_map_ne {items : List RawReport} {gid gid' : Nat} (h : gid ≠ gid') :
    (items.map (fun r =>
        ({ group_id := gid', report_id := r.id } : AIIssueGroupReport))).filter
      (fun l => l.group_id == gid) = [] := by
  induction items with
  | nil => rfl
  | cons a t ih =>
      have h2 : ((gid' : Nat) == gid) = false := by
        simp
        exact Ne.symm h
      simp [List.filter_cons, h2, ih]

/-- Filtering an id away then for it yields nothing. -/
lemma filter_beq_of_filter_bne_self {links : List AIIssueGroupReport} {gid : Nat} :
    (links.filter (fun l => l.group_id != gid)).filter
      (fun l => l.group_id == gid) = [] := by
  induction links with
  | nil => rfl
  | cons a t ih =>
      by_cases ha : a.group_id = gid
      · have h1 : (a.group_id != gid) = false := by simp [ha]
        simp [List.filter_cons, h1, ih]
      · have h1 : (a.group_id != gid) = true := by simp [ha]
        have h2 : (a.group_id == gid) = false := by simp [ha]
        simp [List.filter_cons, h1, h2, ih]

/-- Fresh links for a group id all pass its filter. -/
lemma filter_beq_map_self {items : List RawReport} {gid : Nat} :
    (items.map (fun r =>
        ({ group_id := gid, report_id := r.id } : AIIssueGroupReport))).filter
      (fun l => l.group_id == gid)
      = items.map (fun r =>
          ({ group_id := gid, report_id := r.id } : AIIssueGroupReport)) := by
  induction items with
  | nil => rfl
  | cons a t ih => simp [List.filter_cons, ih]

/-- Replacing a group's links by exactly its current links preserves the
link table as a set. -/
lemma mem_partition_links {links m : List AIIssueGroupReport} {gid : Nat}
    (hm : links.filter (fun l => l.group_id == gid) = m) :
    ∀ x, x ∈ links.filter (fun l => l.group_id != gid) ++ m ↔ x ∈ links := by
  intro x
  rw [List.mem_append, ← hm]
  constructor
  · rintro (h1 | h2)
    · exact (List.mem_filter.mp h1).1
    · exact (List.mem_filter.mp h2).1
  · intro hx
    by_cases hg : x.group_id = gid
    · right
      exact List.mem_filter.mpr ⟨hx, by simp [hg]⟩
    · left
      exact List.mem_filter.mpr ⟨hx, by simp [hg]⟩

/-- Keys present after an insertion: the old keys, or the inserted one. -/
lemma keys_insertGrouped {acc : List (String × List RawReport)} {s : String}
    {r : RawReport} :
    ∀ k ∈ (insertGrouped acc s r).map (fun e => e.1),
      k ∈ acc.map (fun e => e.1) ∨ k = s := by
  induction acc with
  | nil =>
      intro k hk
      rcases List.mem_singleton.mp hk with rfl
      exact Or.inr rfl
  | cons a t ih =>
      obtain ⟨k0, v0⟩ := a
      intro k hk
      by_cases hks : k0 = s
      · simp only [insertGrouped, if_pos hks] at hk
        rcases List.mem_cons.mp hk with rfl | h2
        · exact Or.inl (by simp)
        · exact Or.inl (List.mem_cons_of_mem _ h2)
      · simp only [insertGrouped, if_neg hks] at hk
        rcases List.mem_cons.mp hk with rfl | h2
        · exact Or.inl (by simp)
        · rcases ih k h2 with h3 | h3
          · exact Or.inl (List.mem_cons_of_mem _ h3)
          · exact Or.inr h3

/-- Insertion preserves distinctness of the signature keys. -/
lemma nodup_keys_insertGrouped {acc : List (String × List RawReport)} {s : String}
    {r : RawReport} (hnd : (acc.map (fun e => e.1)).Nodup) :
    ((insertGrouped acc s r).map (fun e => e.1)).Nodup := by
  induction acc with
  | nil => simp [insertGrouped]
  | cons a t ih =>
      obtain ⟨k0, v0⟩ := a
      rw [List.map_cons] at hnd
      obtain ⟨hk0, hndt⟩ := List.nodup_cons.mp hnd
      by_cases hks : k0 = s
      · simp only [insertGrouped, if_pos hks, List.map_cons]
        exact List.nodup_cons.mpr ⟨hk0, hndt⟩
      · simp only [insertGrouped, if_neg hks, List.map_cons]
        refine List.nodup_cons.mpr ⟨?_, ih hndt⟩
        intro hc
        rcases keys_insertGrouped k0 hc with h3 | h3
        · exact hk0 h3
        · exact hks h3

/-- The signature keys of `groupBySig` are pairwise distinct. -/
lemma groupBySig_keys_nodup (rs : List RawReport) :
    ((groupBySig rs).map (fun e => e.1)).Nodup := by
  suffices h : ∀ acc, ((acc : List (String × List RawReport)).map
      (fun e => e.1)).Nodup →
      ((rs.foldl (fun acc r => match sigKey r with
        | none => acc
        | some s => insertGrouped acc s r) acc).map (fun e => e.1)).Nodup by
    exact h [] (by simp)
  induction rs with
  | nil =>
      intro acc hacc
      simpa using hacc
  | cons r rest ih =>
      intro acc hacc
      rw [List.foldl_cons]
      cases hsk : sigKey r with
      | none => exact ih acc hacc
      | some s => exact ih _ (nodup_keys_insertGrouped hacc)

/-- A property of the signatures of the listed reports holds for every
signature key `groupBySig` produces. -/
lemma groupBySig_keys_prop_aux (P : String → Prop) :
    ∀ (l : List RawReport) (acc : List (String × List RawReport)),
      (∀ e ∈ acc, P e.1) → (∀ r ∈ l, ∀ σ, sigKey r = some σ → P σ) →
      ∀ e ∈ l.foldl (fun acc r => match sigKey r with
        | none => acc
        | some s => insertGrouped acc s r) acc, P e.1 := by
  intro l
  induction l with
  | nil =>
      intro acc hacc _
      simpa using hacc
  | cons r rest ih =>
      intro acc hacc hl
      rw [List.foldl_cons]
      cases hsk : sigKey r with
      | none =>
          exact ih acc hacc (fun r' hr' => hl r' (List.mem_cons_of_mem _ hr'))
      | some s =>
          refine ih _ ?_ (fun r' hr' => hl r' (List.mem_cons_of_mem _ hr'))
          intro e he
          have hk := keys_insertGrouped e.1 (List.mem_map_of_mem (fun e => e.1) he)
          rcases hk with h1 | h1
          · obtain ⟨e0, he0, he0k⟩ := List.mem_map.mp h1
            exact he0k ▸ hacc e0 he0
          · rw [h1]
            exact hl r (List.mem_cons_self _ _) s hsk

/-- A property of the reports' signatures holds for all grouping keys. -/
lemma groupBySig_keys_prop (rs : List RawReport) (P : String → Prop)
    (h : ∀ r ∈ rs, ∀ σ, sigKey r = some σ → P σ) :
    ∀ e ∈ groupBySig rs, P e.1 :=
  groupBySig_keys_prop_aux P rs [] (by simp) h

/-- The database invariants the signature loop maintains: group ids all
distinct and below the id counter, link rows referencing allocated ids. -/
def RecInv (st : RecState) : Prop :=
  (st.groups.map (fun g => g.id)).Nodup ∧
  (∀ g ∈ st.groups, g.id < st.nextGroupId) ∧
  (∀ l ∈ st.links, l.group_id < st.nextGroupId)

/-- The per-signature postcondition of the loop: the first group
matching the marker carries the computed title, summary and roll-ups,
and its link rows are exactly the members. -/
def EntryInv (f : List RawReport → String × Option String) (t : Nat)
    (st : RecState) (e : String × List RawReport) : Prop :=
  ∃ g, st.groups.find? (matchesMarker t e.1) = some g ∧
    g.tenant_id = t ∧
    g.title = (f e.2).1 ∧
    g.summary = some (summaryWithSig e.1 (f e.2).2) ∧
    g.frequency = e.2.length ∧
    g.sources = sourceCounts e.2 ∧
    st.links.filter (fun l => l.group_id == g.id)
      = e.2.map (fun r => { group_id := g.id, report_id := r.id })

/-- Unfolding a step when no group matches the marker. -/
lemma reclusterStep_eq_none (f : List RawReport → String × Option String)
    (t : Nat) (st : RecState) (σ : String) (items : List RawReport)
    (h : st.groups.find? (matchesMarker t σ) = none) :
    reclusterStep f t st (σ, items)
      = { groups := st.groups ++ [mkGroup t st.nextGroupId σ (f items) items],
          links := st.links.filter (fun l => l.group_id != st.nextGroupId) ++
            items.map (fun r => { group_id := st.nextGroupId, report_id := r.id }),
          nextGroupId := st.nextGroupId + 1, created := st.created + 1,
          updated := st.updated } := by
  simp [reclusterStep, h]

/-- Unfolding a step when a group matches the marker. -/
lemma reclusterStep_eq_some (f : List RawReport → String × Option String)
    (t : Nat) (st : RecState) (σ : String) (items : List RawReport)
    (g : AIIssueGroup) (h : st.groups.find? (matchesMarker t σ) = some g) :
    reclusterStep f t st (σ, items)
      = { groups := updateFirst (matchesMarker t σ)
            (fun _ => updGroup (f items) σ items g) st.groups,
          links := st.links.filter (fun l => l.group_id != g.id) ++
            items.map (fun r => { group_id := g.id, report_id := r.id }),
          nextGroupId := st.nextGroupId, created := st.created,
          updated := st.updated + 1 } := by
  simp [reclusterStep, h]

/-- One loop iteration preserves the database invariants. -/
lemma recInv_step (f : List RawReport → String × Option String) (t : Nat)
    (st : RecState) (e : String × List RawReport) (hinv : RecInv st) :
    RecInv (reclusterStep f t st e) := by
  obtain ⟨σ, items⟩ := e
  obtain ⟨hnd, hg, hl⟩ := hinv
  cases hfind : st.groups.find? (matchesMarker t σ) with
  | none =>
      rw [reclusterStep_eq_none f t st σ items hfind]
      refine ⟨?_, ?_, ?_⟩
      · rw [List.map_append]
        rw [List.nodup_append]
        refine ⟨hnd, by simp [mkGroup], ?_⟩
        intro x hx hy
        simp [mkGroup] at hy
        obtain ⟨g0, hg0, hg0x⟩ := List.mem_map.mp hx
        subst hg0x
        have := hg g0 hg0
        rw [hy] at this
        exact absurd this (Nat.lt_irrefl _)
      · intro g0 hg0
        rcases List.mem_append.mp hg0 with h1 | h2
        · exact Nat.lt_succ_of_lt (hg g0 h1)
        · rcases List.mem_singleton.mp h2 with rfl
          exact Nat.lt_succ_self _
      · intro l0 hl0
        rcases List.mem_append.mp hl0 with h1 | h2
        · exact Nat.lt_succ_of_lt (hl l0 (List.mem_filter.mp h1).1)
        · obtain ⟨r0, _, hr0⟩ := List.mem_map.mp h2
          subst hr0
          exact Nat.lt_succ_self _
  | some g =>
      rw [reclusterStep_eq_some f t st σ items g hfind]
      have hgmem : g ∈ st.groups := (find?_mem_pred hfind).1
      refine ⟨?_, ?_, ?_⟩
      · rw [map_updateFirst_eq hfind (by rfl)]
        exact hnd
      · intro g0 hg0
        rcases mem_updateFirst hg0 with h1 | ⟨y, _, hy⟩
        · exact hg g0 h1
        · rw [← hy]
          exact hg g hgmem
      · intro l0 hl0
        rcases List.mem_append.mp hl0 with h1 | h2
        · exact hl l0 (List.mem_filter.mp h1).1
        · obtain ⟨r0, _, hr0⟩ := List.mem_map.mp h2
          subst hr0
          exact hg g hgmem

/-- After its own iteration, a signature's postcondition holds. -/
lemma entryInv_step_self (f : List RawReport → String × Option String) (t : Nat)
    (st : RecState) (σ : String) (items : List RawReport) :
    EntryInv f t (reclusterStep f t st (σ, items)) (σ, items) := by
  cases hfind : st.groups.find? (matchesMarker t σ) with
  | none =>
      rw [reclusterStep_eq_none f t st σ items hfind]
      refine ⟨mkGroup t st.nextGroupId σ (f items) items,
        ?_, rfl, rfl, rfl, rfl, rfl, ?_⟩
      · have hm : matchesMarker t σ (mkGroup t st.nextGroupId σ (f items) items)
            = true := by
          apply matchesMarker_summaryWithSig <;> rfl
        rw [find?_append_right hfind, List.find?_cons, hm]
      · show (st.links.filter (fun l => l.group_id != st.nextGroupId) ++
            items.map (fun r =>
              ({ group_id := st.nextGroupId, report_id := r.id } :
                AIIssueGroupReport))).filter
            (fun l => l.group_id == st.nextGroupId)
            = items.map (fun r =>
              ({ group_id := st.nextGroupId, report_id := r.id } :
                AIIssueGroupReport))
        rw [List.filter_append, filter_beq_of_filter_bne_self,
          filter_beq_map_self]
        rfl
  | some g =>
      rw [reclusterStep_eq_some f t st σ items g hfind]
      have htg : g.tenant_id = t := matchesMarker_tenant (find?_mem_pred hfind).2
      refine ⟨updGroup (f items) σ items g, ?_, htg, rfl, rfl, rfl, rfl, ?_⟩
      · refine find?_updateFirst_self hfind ?_
        apply matchesMarker_summaryWithSig
        · simp [updGroup, htg]
        · rfl
      · show (st.links.filter (fun l => l.group_id != g.id) ++
            items.map (fun r =>
              ({ group_id := g.id, report_id := r.id } :
                AIIssueGroupReport))).filter (fun l => l.group_id == g.id)
            = items.map (fun r =>
              ({ group_id := g.id, report_id := r.id } : AIIssueGroupReport))
        rw [List.filter_append, filter_beq_of_filter_bne_self,
          filter_beq_map_self]
        rfl

/-- Another signature's iteration (same key length, different key)
leaves a signature's postcondition intact. -/
lemma entryInv_step_other (f : List RawReport → String × Option String) (t : Nat)
    (st : RecState) {σ σ' : String} {items items' : List RawReport}
    (hinv : RecInv st) (hE : EntryInv f t st (σ, items))
    (hlen : σ.length = σ'.length) (hne : σ ≠ σ') :
    EntryInv f t (reclusterStep f t st (σ', items')) (σ, items) := by
  obtain ⟨g, hfind, htg, hti, hsum, hfreq, hsrc, hlinks⟩ := hE
  obtain ⟨hnd, hgbound, _⟩ := hinv
  have hgmem : g ∈ st.groups := (find?_mem_pred hfind).1
  have hgmark : matchesMarker t σ g = true := (find?_mem_pred hfind).2
  cases hfind' : st.groups.find? (matchesMarker t σ') with
  | none =>
      rw [reclusterStep_eq_none f t st σ' items' hfind']
      have hid : g.id ≠ st.nextGroupId := by
        intro hc
        exact absurd (hc ▸ hgbound g hgmem) (Nat.lt_irrefl _)
      refine ⟨g, find?_append_left hfind, htg, hti, hsum, hfreq, hsrc, ?_⟩
      show (st.links.filter (fun l => l.group_id != st.nextGroupId) ++
          items'.map (fun r =>
            ({ group_id := st.nextGroupId, report_id := r.id } :
              AIIssueGroupReport))).filter (fun l => l.group_id == g.id)
          = items.map (fun r =>
            ({ group_id := g.id, report_id := r.id } : AIIssueGroupReport))
      rw [List.filter_append, filter_beq_of_filter_bne hid,
        filter_beq_map_ne hid, hlinks, List.append_nil]
  | some h0 =>
      rw [reclusterStep_eq_some f t st σ' items' h0 hfind']
      have h0mem : h0 ∈ st.groups := (find?_mem_pred hfind').1
      have h0mark : matchesMarker t σ' h0 = true := (find?_mem_pred hfind').2
      have hidne : g.id ≠ h0.id := by
        intro hc
        have hgh : g = h0 := List.inj_on_of_nodup_map hnd hgmem h0mem hc
        exact hne (matchesMarker_unique hgmark (hgh ▸ h0mark) hlen)
      have hmark_excl : ∀ x, matchesMarker t σ' x = true →
          matchesMarker t σ x = false := by
        intro x hx
        cases hmx : matchesMarker t σ x with
        | false => rfl
        | true => exact absurd (matchesMarker_unique hmx hx hlen) hne
      have hmark_upd : matchesMarker t σ
          (updGroup (f items') σ' items' h0) = false := by
        have hupd : matchesMarker t σ' (updGroup (f items') σ' items' h0) = true :=
          matchesMarker_summaryWithSig
            (by simp [updGroup, matchesMarker_tenant h0mark]) rfl
        exact hmark_excl _ hupd
      refine ⟨g, ?_, htg, hti, hsum, hfreq, hsrc, ?_⟩
      · rw [find?_updateFirst_other hmark_excl hmark_upd]
        exact hfind
      · show (st.links.filter (fun l => l.group_id != h0.id) ++
            items'.map (fun r =>
              ({ group_id := h0.id, report_id := r.id } :
                AIIssueGroupReport))).filter (fun l => l.group_id == g.id)
            = items.map (fun r =>
              ({ group_id := g.id, report_id := r.id } : AIIssueGroupReport))
        rw [List.filter_append, filter_beq_of_filter_bne hidne,
          filter_beq_map_ne hidne, hlinks, List.append_nil]

/-- A signature's postcondition survives the iterations of all later
signatures (all keys sharing one length, none equal to this one). -/
lemma entryInv_fold (f : List RawReport → String × Option String) (t n : Nat) :
    ∀ (rest : List (String × List RawReport)) (st : RecState)
      (e : String × List RawReport),
      RecInv st → EntryInv f t st e → e.1.length = n →
      (∀ e' ∈ rest, e'.1.length = n ∧ e'.1 ≠ e.1) →
      EntryInv f t (rest.foldl (reclusterStep f t) st) e := by
  intro rest
  induction rest with
  | nil =>
      intro st e _ hE _ _
      exact hE
  | cons e' rest' ih =>
      intro st e hinv hE hlen hrest
      rw [List.foldl_cons]
      obtain ⟨σ, items⟩ := e
      obtain ⟨σ', items'⟩ := e'
      have h1 := hrest (σ', items') (List.mem_cons_self _ _)
      refine ih (reclusterStep f t st (σ', items')) (σ, items)
        (recInv_step f t st (σ', items') hinv) ?_ hlen
        (fun x hx => hrest x (List.mem_cons_of_mem _ hx))
      exact entryInv_step_other f t st hinv hE
        (by rw [hlen, h1.1]) (fun hc => h1.2 hc.symm)

/-- After the whole loop, the database invariants hold and every
processed signature satisfies its postcondition. -/
lemma run1 (f : List RawReport → String × Option String) (t n : Nat) :
    ∀ (sgs : List (String × List RawReport)) (st : RecState),
      RecInv st → ((sgs.map (fun e => e.1)).Nodup) →
      (∀ e ∈ sgs, e.1.length = n) →
      RecInv (sgs.foldl (reclusterStep f t) st) ∧
      ∀ e ∈ sgs, EntryInv f t (sgs.foldl (reclusterStep f t) st) e := by
  intro sgs
  induction sgs with
  | nil =>
      intro st hinv _ _
      exact ⟨hinv, by simp⟩
  | cons e rest ih =>
      intro st hinv hnd hlen
      rw [List.map_cons] at hnd
      obtain ⟨hk, hnd'⟩ := List.nodup_cons.mp hnd
      rw [List.foldl_cons]
      have hinv1 := recInv_step f t st e hinv
      obtain ⟨hfin, hrest⟩ := ih (reclusterStep f t st e) hinv1 hnd'
        (fun x hx => hlen x (List.mem_cons_of_mem _ hx))
      refine ⟨hfin, ?_⟩
      intro e0 he0
      rcases List.mem_cons.mp he0 with rfl | h2
      · obtain ⟨σ, items⟩ := e0
        refine entryInv_fold f t n rest (reclusterStep f t st (σ, items))
          (σ, items) hinv1 (entryInv_step_self f t st σ items)
          (hlen (σ, items) (List.mem_cons_self _ _)) ?_
        intro e' he'
        refine ⟨hlen e' (List.mem_cons_of_mem _ he'), ?_⟩
        intro hc
        exact hk (hc ▸ List.mem_map_of_mem (fun e => e.1) he')
      · exact hrest e0 h2

/-- A second pass over signatures whose postconditions already hold
changes nothing: groups stay literally equal, the link table stays
set-equal, and no group is created. -/
lemma run2 (f : List RawReport → String × Option String) (t n : Nat) :
    ∀ (sgs : List (String × List RawReport)) (st : RecState),
      RecInv st → ((sgs.map (fun e => e.1)).Nodup) →
      (∀ e ∈ sgs, e.1.length = n) →
      (∀ e ∈ sgs, EntryInv f t st e) →
      (sgs.foldl (reclusterStep f t) st).groups = st.groups ∧
      (∀ x, x ∈ (sgs.foldl (reclusterStep f t) st).links ↔ x ∈ st.links) ∧
      (sgs.foldl (reclusterStep f t) st).nextGroupId = st.nextGroupId ∧
      (sgs.foldl (reclusterStep f t) st).created = st.created := by
  intro sgs
  induction sgs with
  | nil =>
      intro st _ _ _ _
      exact ⟨rfl, fun x => Iff.rfl, rfl, rfl⟩
  | cons e rest ih =>
      intro st hinv hnd hlen hE
      obtain ⟨σ, items⟩ := e
      obtain ⟨g, hfind, htg, hti, hsum, hfreq, hsrc, hlinks⟩ :=
        hE (σ, items) (List.mem_cons_self _ _)
      rw [List.map_cons] at hnd
      obtain ⟨hk, hnd'⟩ := List.nodup_cons.mp hnd
      have hupd : updGroup (f items) σ items g = g := by
        have heq : updGroup (f items) σ items g =
            { id := g.id, tenant_id := g.tenant_id, title := (f items).1,
              summary := some (summaryWithSig σ (f items).2), status := g.status,
              frequency := items.length, sources := sourceCounts items } := rfl
        rw [heq, ← hti, ← hsum, ← hfreq, ← hsrc]
      have hstep := reclusterStep_eq_some f t st σ items g hfind
      have hG : (reclusterStep f t st (σ, items)).groups = st.groups := by
        rw [hstep]
        show updateFirst (matchesMarker t σ)
          (fun _ => updGroup (f items) σ items g) st.groups = st.groups
        simp only [hupd]
        exact updateFirst_self hfind
      have hL : ∀ x, x ∈ (reclusterStep f t st (σ, items)).links ↔ x ∈ st.links := by
        rw [hstep]
        exact mem_partition_links hlinks
      have hN : (reclusterStep f t st (σ, items)).nextGroupId = st.nextGroupId := by
        rw [hstep]
      have hC : (reclusterStep f t st (σ, items)).created = st.created := by
        rw [hstep]
      have hInv1 : RecInv (reclusterStep f t st (σ, items)) :=
        recInv_step f t st (σ, items) hinv
      have hEtrans : ∀ e' ∈ rest, EntryInv f t (reclusterStep f t st (σ, items)) e' := by
        intro e' he'
        obtain ⟨σ2, items2⟩ := e'
        obtain ⟨g2, hfind2, htg2, hti2, hsum2, hfreq2, hsrc2, hlinks2⟩ :=
          hE (σ2, items2) (List.mem_cons_of_mem _ he')
        have hsne : σ2 ≠ σ := by
          intro hc
          exact hk (hc ▸ List.mem_map_of_mem (fun e => e.1) he')
        have hgne : g2.id ≠ g.id := by
          intro hc
          have hg2mem : g2 ∈ st.groups := (find?_mem_pred hfind2).1
          have hgmem : g ∈ st.groups := (find?_mem_pred hfind).1
          have : g2 = g := List.inj_on_of_nodup_map hinv.1 hg2mem hgmem hc
          refine hsne (matchesMarker_unique (find?_mem_pred hfind2).2
            (this ▸ (find?_mem_pred hfind).2) ?_)
          rw [hlen (σ2, items2) (List.mem_cons_of_mem _ he'),
            hlen (σ, items) (List.mem_cons_self _ _)]
        refine ⟨g2, ?_, htg2, hti2, hsum2, hfreq2, hsrc2, ?_⟩
        · rw [hG]
          exact hfind2
        · rw [hstep]
          show (st.links.filter (fun l => l.group_id != g.id) ++
              items.map (fun r =>
                ({ group_id := g.id, report_id := r.id } :
                  AIIssueGroupReport))).filter (fun l => l.group_id == g2.id)
              = items2.map (fun r =>
                ({ group_id := g2.id, report_id := r.id } : AIIssueGroupReport))
          rw [List.filter_append, filter_beq_of_filter_bne hgne,
            filter_beq_map_ne hgne, hlinks2, List.append_nil]
      rw [List.foldl_cons]
      obtain ⟨ihG, ihL, ihN, ihC⟩ := ih (reclusterStep f t st (σ, items)) hInv1 hnd'
        (fun x hx => hlen x (List.mem_cons_of_mem _ hx)) hEtrans
      refine ⟨ihG.trans hG, ?_, ihN.trans hN, ihC.trans hC⟩
      intro x
      exact (ihL x).trans (hL x)

/-- The initial loop state `recluster` builds from the database. -/
def recStateOf (db : ClusterDb) : RecState :=
  { groups := db.groups, links := db.links, nextGroupId := db.nextGroupId,
    created := 0, updated := 0 }

/-- C4: calling `recluster` a second time immediately after a first
call, with no report added, removed or modified in between, reproduces
the first call's result: the stored groups (ids, titles, summaries,
frequencies, sources) are literally equal, the membership link table is
equal as a set, no group is created, and the reports are untouched.
Hypotheses are the database invariants: signatures have the fixed
24-character length `_simple_signature` produces, group ids are unique
and below the id counter, and link rows reference allocated ids. -/
theorem C4_theorem (f : List RawReport → String × Option String) (tenant : Nat)
    (db : ClusterDb)
    (h24 : ∀ r ∈ db.reports, ∀ σ, sigKey r = some σ → σ.length = 24)
    (hnd : (db.groups.map (fun g => g.id)).Nodup)
    (hltg : ∀ g ∈ db.groups, g.id < db.nextGroupId)
    (hltl : ∀ l ∈ db.links, l.group_id < db.nextGroupId) :
    (recluster f tenant (recluster f tenant db).state).state.groups
      = (recluster f tenant db).state.groups ∧
    (∀ x, x ∈ (recluster f tenant (recluster f tenant db).state).state.links
      ↔ x ∈ (recluster f tenant db).state.links) ∧
    (recluster f tenant (recluster f tenant db).state).created = 0 ∧
    (recluster f tenant (recluster f tenant db).state).state.reports
      = (recluster f tenant db).state.reports := by
  have hkeys_nodup : ((groupBySig (db.reports.filter
      (fun r => r.tenant_id == tenant))).map (fun e => e.1)).Nodup :=
    groupBySig_keys_nodup _
  have hkeys_len : ∀ e ∈ groupBySig (db.reports.filter
      (fun r => r.tenant_id == tenant)), e.1.length = 24 :=
    groupBySig_keys_prop _ _
      (fun r hr σ hσ => h24 r (List.mem_filter.mp hr).1 σ hσ)
  have hitems_ne : ∀ e ∈ groupBySig (db.reports.filter
      (fun r => r.tenant_id == tenant)), e.2 ≠ [] :=
    groupBySig_nonempty _
  have hinv0 : RecInv (recStateOf db) := ⟨hnd, hltg, hltl⟩
  obtain ⟨hinvF, hEF⟩ := run1 f tenant 24
    (groupBySig (db.reports.filter (fun r => r.tenant_id == tenant)))
    (recStateOf db) hinv0 hkeys_nodup hkeys_len
  -- the state after the first loop
  set stF := (groupBySig (db.reports.filter
      (fun r => r.tenant_id == tenant))).foldl (reclusterStep f tenant)
    (recStateOf db) with hstF
  -- the initial state of the second run
  set st0' := recStateOf (recluster f tenant db).state with hst0'
  have hst0'groups : st0'.groups = orphanFilter tenant stF.links stF.groups := rfl
  have hst0'links : st0'.links = stF.links := rfl
  have hinv0' : RecInv st0' := by
    refine ⟨?_, ?_, ?_⟩
    · exact hinvF.1.sublist
        ((List.filter_sublist stF.groups).map (fun g => g.id))
    · intro g hg
      exact hinvF.2.1 g (List.mem_filter.mp hg).1
    · exact hinvF.2.2
  have hE0' : ∀ e ∈ groupBySig (db.reports.filter
      (fun r => r.tenant_id == tenant)), EntryInv f tenant st0' e := by
    intro e he
    obtain ⟨g, hfind, htg, hti, hsum, hfreq, hsrc, hlinks⟩ := hEF e he
    have hkeep : (!(g.tenant_id == tenant) ||
        stF.links.any (fun l => l.group_id == g.id)) = true := by
      cases hitems : e.2 with
      | nil => exact absurd hitems (hitems_ne e he)
      | cons i0 items0 =>
          refine Bool.or_eq_true_iff.mpr (Or.inr ?_)
          refine List.any_eq_true.mpr
            ⟨{ group_id := g.id, report_id := i0.id }, ?_, by simp⟩
          have hmem : ({ group_id := g.id, report_id := i0.id } :
              AIIssueGroupReport) ∈ stF.links.filter
                (fun l => l.group_id == g.id) := by
            rw [hlinks, hitems]
            exact List.mem_cons_self _ _
          exact (List.mem_filter.mp hmem).1
    refine ⟨g, ?_, htg, hti, hsum, hfreq, hsrc, hlinks⟩
    exact find?_filter_keep hfind hkeep
  obtain ⟨h2G, h2L, h2N, h2C⟩ := run2 f tenant 24
    (groupBySig (db.reports.filter (fun r => r.tenant_id == tenant)))
    st0' hinv0' hkeys_nodup hkeys_len hE0'
  -- the state after the second loop
  set stF2 := (groupBySig (db.reports.filter
      (fun r => r.tenant_id == tenant))).foldl (reclusterStep f tenant) st0'
    with hstF2
  have hkeep2 : ∀ g ∈ stF2.groups, (!(g.tenant_id == tenant) ||
      stF2.links.any (fun l => l.group_id == g.id)) = true := by
    intro g hg
    rw [h2G] at hg
    by_cases htg : g.tenant_id = tenant
    · obtain ⟨l, hl, hlg⟩ := orphanFilter_mem hg htg
      refine Bool.or_eq_true_iff.mpr (Or.inr ?_)
      refine List.any_eq_true.mpr ⟨l, ?_, by simp [hlg]⟩
      exact (h2L l).mpr hl
    · refine Bool.or_eq_true_iff.mpr (Or.inl ?_)
      simp [htg]
  have hfilter2 : orphanFilter tenant stF2.links stF2.groups = stF2.groups :=
    List.filter_eq_self.mpr hkeep2
  refine ⟨?_, ?_, ?_, rfl⟩
  · show orphanFilter tenant stF2.links stF2.groups
      = orphanFilter tenant stF.links stF.groups
    rw [hfilter2, h2G]
    exact hst0'groups
  · intro x
    show x ∈ stF2.links ↔ x ∈ stF.links
    exact h2L x
  · show stF2.created = 0
    rw [h2C, hst0']
    rfl

/-- A report with a 24-character signature. -/
def c4rep : RawReport :=
  { id := 1, tenant_id := 1, source := "hubspot", external_id := some "C4",
    title := "c4 title", body := none, url := none,
    signature := some "abcabcabcabcabcabcabcabc", created_at := 1 }

/-- A one-report database with fresh id counters. -/
def c4db : ClusterDb :=
  { reports := [c4rep], groups := [], links := [], nextReportId := 2,
    nextGroupId := 1 }

/-- C4 (witness): idempotence of `recluster` evaluated on `c4db` with
the fallback summarizer. -/
theorem C4_witness :
    (∀ r ∈ c4db.reports, ∀ σ, sigKey r = some σ → σ.length = 24) ∧
    ((c4db.groups.map (fun g => g.id)).Nodup) ∧
    (∀ g ∈ c4db.groups, g.id < c4db.nextGroupId) ∧
    (∀ l ∈ c4db.links, l.group_id < c4db.nextGroupId) ∧
    ((recluster _summarize_group_fallback 1
        (recluster _summarize_group_fallback 1 c4db).state).state.groups
      = (recluster _summarize_group_fallback 1 c4db).state.groups ∧
     (∀ x, x ∈ (recluster _summarize_group_fallback 1
          (recluster _summarize_group_fallback 1 c4db).state).state.links
        ↔ x ∈ (recluster _summarize_group_fallback 1 c4db).state.links) ∧
     (recluster _summarize_group_fallback 1
        (recluster _summarize_group_fallback 1 c4db).state).created = 0 ∧
     (recluster _summarize_group_fallback 1
        (recluster _summarize_group_fallback 1 c4db).state).state.reports
      = (recluster _summarize_group_fallback 1 c4db).state.reports) := by
  have h24 : ∀ r ∈ c4db.reports, ∀ σ, sigKey r = some σ → σ.length = 24 := by
    intro r hr σ hσ
    rcases List.mem_singleton.mp hr with rfl
    cases hσ
    decide

  refine ⟨h24, by decide, by decide, by decide, ?_⟩
  exact C4_theorem _summarize_group_fallback 1 c4db h24 (by decide) (by decide)
    (by decide)
